import Mathlib

/-! # VulnPulse: the queue-driven correlation pipeline

A shallow embedding of the worker dispatch loop (`internal/worker/worker.go`),
the matching engine (`internal/service/match.go`) and the alert ledger upsert
(`internal/repository/alert.go`), followed by the properties proved about them.

Conventions of the embedding:

* Go strings are Lean strings; substring search and lower-casing work on the
  character sequence.
* `uuid.UUID` and `time.Time` are opaque values, represented by natural numbers.
* A Go `error` is an `Option String`: `none` is `nil`.
* Everything the code obtains from outside (fresh UUIDs, the database clock,
  driver failures, publish failures, the JSON and UUID parsers) is read from an
  `Env`, indexed by a counter kept in the `World`, so that a run is a function of
  the environment and the initial world and every pattern of outcomes is covered
  by quantifying over `Env`.
-/

namespace VulnPulse

/-! ## Data model (`internal/domain/models.go`, `pkg/queue/rabbitmq.go`) -/

/-- Identifier type `uuid.UUID`, kept opaque. -/
abbrev UUID := Nat

/-- Instant type `time.Time`, kept opaque; `0` is the zero value. -/
abbrev Time := Nat

/-- Go `error`: `none` is `nil`, `some msg` is an error with that text. -/
abbrev GoError := Option String

/-- Asset record of `domain.Asset` (fields the pipeline reads; `Type_` is the Go
field `Type`). -/
structure Asset where
  ID : UUID
  TenantID : UUID
  Name : String
  Type_ : String
  Version : Option String
  deriving DecidableEq, Repr

/-- AffectedProduct record of `domain.AffectedProduct`. -/
structure AffectedProduct where
  Name : String
  Versions : List String
  deriving DecidableEq, Repr

/-- Vulnerability record of `domain.Vulnerability`. -/
structure Vulnerability where
  ID : UUID
  CveID : String
  Title : String
  Severity : String
  AffectedProducts : List AffectedProduct
  deriving DecidableEq, Repr

/-- Alert record of `domain.Alert`; also the shape of a row of table `alerts`. -/
structure Alert where
  ID : UUID
  TenantID : UUID
  AssetID : UUID
  VulnerabilityID : UUID
  Severity : String
  Status : String
  MatchedAt : Time
  ResolvedAt : Option Time
  deriving DecidableEq, Repr

def AlertStatusOpen : String := "open"
def AlertStatusAcknowledged : String := "acknowledged"
def AlertStatusResolved : String := "resolved"
def AlertStatusFalsePositive : String := "false_positive"
def EventAlertCreated : String := "alert.created"

/-! ## Strings (`strings.ToLower`, `strings.Contains`) -/

/-- The lower-case mappings of the characters above ASCII (the simple lower-case
mapping of the Unicode character database, version 14.0, to which version 15.0
adds none; the table `unicode.CaseRanges` of the Go library encodes it), as ranges `(lo, hi, stride, target)`: a code point
`r` with `lo ≤ r ≤ hi` and `r - lo` a multiple of `stride` maps to
`target + (r - lo)`. The ranges are disjoint; a code point in none of them maps
to itself. -/
def lowerCaseRanges : List (Nat × Nat × Nat × Nat) :=
  [(192, 214, 1, 224), (216, 222, 1, 248), (256, 302, 2, 257), (304, 304, 1, 105),
   (306, 310, 2, 307), (313, 327, 2, 314), (330, 374, 2, 331), (376, 376, 1, 255),
   (377, 381, 2, 378), (385, 385, 1, 595), (386, 388, 2, 387), (390, 390, 1, 596),
   (391, 391, 1, 392), (393, 394, 1, 598), (395, 395, 1, 396), (398, 398, 1, 477),
   (399, 399, 1, 601), (400, 400, 1, 603), (401, 401, 1, 402), (403, 403, 1, 608),
   (404, 404, 1, 611), (406, 406, 1, 617), (407, 407, 1, 616), (408, 408, 1, 409),
   (412, 412, 1, 623), (413, 413, 1, 626), (415, 415, 1, 629), (416, 420, 2, 417),
   (422, 422, 1, 640), (423, 423, 1, 424), (425, 425, 1, 643), (428, 428, 1, 429),
   (430, 430, 1, 648), (431, 431, 1, 432), (433, 434, 1, 650), (435, 437, 2, 436),
   (439, 439, 1, 658), (440, 440, 1, 441), (444, 444, 1, 445), (452, 452, 1, 454),
   (453, 453, 1, 454), (455, 455, 1, 457), (456, 456, 1, 457), (458, 458, 1, 460),
   (459, 475, 2, 460), (478, 494, 2, 479), (497, 497, 1, 499), (498, 500, 2, 499),
   (502, 502, 1, 405), (503, 503, 1, 447), (504, 542, 2, 505), (544, 544, 1, 414),
   (546, 562, 2, 547), (570, 570, 1, 11365), (571, 571, 1, 572), (573, 573, 1, 410),
   (574, 574, 1, 11366), (577, 577, 1, 578), (579, 579, 1, 384), (580, 580, 1, 649),
   (581, 581, 1, 652), (582, 590, 2, 583), (880, 882, 2, 881), (886, 886, 1, 887),
   (895, 895, 1, 1011), (902, 902, 1, 940), (904, 906, 1, 941), (908, 908, 1, 972),
   (910, 911, 1, 973), (913, 929, 1, 945), (931, 939, 1, 963), (975, 975, 1, 983),
   (984, 1006, 2, 985), (1012, 1012, 1, 952), (1015, 1015, 1, 1016), (1017, 1017, 1, 1010),
   (1018, 1018, 1, 1019), (1021, 1023, 1, 891), (1024, 1039, 1, 1104), (1040, 1071, 1, 1072),
   (1120, 1152, 2, 1121), (1162, 1214, 2, 1163), (1216, 1216, 1, 1231), (1217, 1229, 2, 1218),
   (1232, 1326, 2, 1233), (1329, 1366, 1, 1377), (4256, 4293, 1, 11520), (4295, 4295, 1, 11559),
   (4301, 4301, 1, 11565), (5024, 5103, 1, 43888), (5104, 5109, 1, 5112), (7312, 7354, 1, 4304),
   (7357, 7359, 1, 4349), (7680, 7828, 2, 7681), (7838, 7838, 1, 223), (7840, 7934, 2, 7841),
   (7944, 7951, 1, 7936), (7960, 7965, 1, 7952), (7976, 7983, 1, 7968), (7992, 7999, 1, 7984),
   (8008, 8013, 1, 8000), (8025, 8031, 2, 8017), (8040, 8047, 1, 8032), (8072, 8079, 1, 8064),
   (8088, 8095, 1, 8080), (8104, 8111, 1, 8096), (8120, 8121, 1, 8112), (8122, 8123, 1, 8048),
   (8124, 8124, 1, 8115), (8136, 8139, 1, 8050), (8140, 8140, 1, 8131), (8152, 8153, 1, 8144),
   (8154, 8155, 1, 8054), (8168, 8169, 1, 8160), (8170, 8171, 1, 8058), (8172, 8172, 1, 8165),
   (8184, 8185, 1, 8056), (8186, 8187, 1, 8060), (8188, 8188, 1, 8179), (8486, 8486, 1, 969),
   (8490, 8490, 1, 107), (8491, 8491, 1, 229), (8498, 8498, 1, 8526), (8544, 8559, 1, 8560),
   (8579, 8579, 1, 8580), (9398, 9423, 1, 9424), (11264, 11311, 1, 11312),
   (11360, 11360, 1, 11361), (11362, 11362, 1, 619), (11363, 11363, 1, 7549),
   (11364, 11364, 1, 637), (11367, 11371, 2, 11368), (11373, 11373, 1, 593),
   (11374, 11374, 1, 625), (11375, 11375, 1, 592), (11376, 11376, 1, 594),
   (11378, 11378, 1, 11379), (11381, 11381, 1, 11382), (11390, 11391, 1, 575),
   (11392, 11490, 2, 11393), (11499, 11501, 2, 11500), (11506, 11506, 1, 11507),
   (42560, 42604, 2, 42561), (42624, 42650, 2, 42625), (42786, 42798, 2, 42787),
   (42802, 42862, 2, 42803), (42873, 42875, 2, 42874), (42877, 42877, 1, 7545),
   (42878, 42886, 2, 42879), (42891, 42891, 1, 42892), (42893, 42893, 1, 613),
   (42896, 42898, 2, 42897), (42902, 42920, 2, 42903), (42922, 42922, 1, 614),
   (42923, 42923, 1, 604), (42924, 42924, 1, 609), (42925, 42925, 1, 620),
   (42926, 42926, 1, 618), (42928, 42928, 1, 670), (42929, 42929, 1, 647),
   (42930, 42930, 1, 669), (42931, 42931, 1, 43859), (42932, 42946, 2, 42933),
   (42948, 42948, 1, 42900), (42949, 42949, 1, 642), (42950, 42950, 1, 7566),
   (42951, 42953, 2, 42952), (42960, 42960, 1, 42961), (42966, 42968, 2, 42967),
   (42997, 42997, 1, 42998), (65313, 65338, 1, 65345), (66560, 66599, 1, 66600),
   (66736, 66771, 1, 66776), (66928, 66938, 1, 66967), (66940, 66954, 1, 66979),
   (66956, 66962, 1, 66995), (66964, 66965, 1, 67003), (68736, 68786, 1, 68800),
   (71840, 71871, 1, 71872), (93760, 93791, 1, 93792), (125184, 125217, 1, 125218)]

/-- Look a code point up in the ranges: the mapped code point, or the code point
itself when no range holds it. -/
def lowerCaseLoop (r : Nat) : List (Nat × Nat × Nat × Nat) → Nat
  | [] => r
  | (lo, hi, stride, target) :: rest =>
    if lo ≤ r ∧ r ≤ hi ∧ (r - lo) % stride = 0 then target + (r - lo)
    else lowerCaseLoop r rest

/-- Function `unicode.ToLower` on one character: up to `MaxASCII` the letters
`A`..`Z` are shifted by 32 and every other character is kept; above it the
character is mapped through the lower-case ranges. -/
def toLowerChar (c : Char) : Char :=
  if c.toNat ≤ 127 then
    if 'A' ≤ c ∧ c ≤ 'Z' then Char.ofNat (c.toNat + 32) else c
  else Char.ofNat (lowerCaseLoop c.toNat lowerCaseRanges)

/-- Model of `strings.ToLower`: every character is mapped by `unicode.ToLower`
(on a string of ASCII characters that is the shift of `A`..`Z` by 32 which the
library does on its fast path). -/
def strings_ToLower (s : String) : String := ⟨s.data.map toLowerChar⟩

/-- Whether the second list is a prefix of the first. -/
def hasPrefixChars : List Char → List Char → Bool
  | _, [] => true
  | [], _ :: _ => false
  | a :: s, b :: p => if a = b then hasPrefixChars s p else false

/-- Whether the second list occurs in the first at some offset. -/
def containsChars : List Char → List Char → Bool
  | [], p => hasPrefixChars [] p
  | a :: s, p => if hasPrefixChars (a :: s) p then true else containsChars s p

/-- Model of `strings.Contains(s, substr)`: `substr` occurs within `s`. -/
def strings_Contains (s substr : String) : Bool :=
  containsChars s.data substr.data

/-! ## The affectedness predicate (`match.go`, `isAssetAffected`) -/

/-- First inner loop of `isAssetAffected` (taken when the asset has a version and
the list is non-empty): returns at the first `version` with
`*asset.Version == version || version == "*"`. -/
def versionLoop (assetVersion : Option String) : List String → Bool
  | [] => false
  | version :: rest =>
    if assetVersion = some version ∨ version = "*" then true
    else versionLoop assetVersion rest

/-- Second inner loop of `isAssetAffected` (wildcard check): returns at the first
`version == "*"`. -/
def wildcardLoop : List String → Bool
  | [] => false
  | version :: rest => if version = "*" then true else wildcardLoop rest

/-- Outer loop of `isAssetAffected` over `vuln.AffectedProducts`, with the
if / else-if chain of the source; an exhausted range falls through to
`return false`. -/
def affectedLoop (asset : Asset) : List AffectedProduct → Bool
  | [] => false
  | affectedProduct :: rest =>
    if strings_Contains (strings_ToLower asset.Name) (strings_ToLower affectedProduct.Name) then
      if asset.Version ≠ none ∧ affectedProduct.Versions.length > 0 then
        if versionLoop asset.Version affectedProduct.Versions then true
        else affectedLoop asset rest
      else if asset.Version = none ∧ affectedProduct.Versions.length = 0 then
        true
      else if affectedProduct.Versions.length > 0 then
        if wildcardLoop affectedProduct.Versions then true
        else affectedLoop asset rest
      else affectedLoop asset rest
    else affectedLoop asset rest

/-- Function `isAssetAffected` of `MatchService`. -/
def isAssetAffected (asset : Asset) (vuln : Vulnerability) : Bool :=
  affectedLoop asset vuln.AffectedProducts

/-! ## Envelopes, environment and world -/

/-- JSON value as decoded into a Go `interface{}`. A number keeps its literal. -/
inductive JSONValue where
  | null
  | bool (b : Bool)
  | number (literal : String)
  | string (s : String)
  | array (items : List JSONValue)
  | object (fields : List (String × JSONValue))

/-- Envelope type `queue.Message`; `Type_` is the Go field `Type`, `Payload` the
map as a key/value list (`nil` and empty are both `[]`). -/
structure Message where
  Type_ : String
  TenantID : String
  Payload : List (String × JSONValue)
  Timestamp : Time

/-- Delivery handle `amqp.Delivery`: the tag and the raw body. -/
structure Delivery where
  DeliveryTag : Nat
  Body : String

/-- Row of table `assets`: the scanned columns and the raw `metadata` column. -/
structure AssetRow where
  asset : Asset
  metadata : String

/-- Observable actions, recorded in order in `World.trace`. `ack` and `nack` are
`delivery.Ack(multiple)` and `delivery.Nack(multiple, requeue)`; `matchVulnerability`
and `matchAsset` mark the entry into the two fan-out functions; `upsert` and
`publish` record each call of `alertRepo.Upsert` and `queue.Publish` with its
argument and the error it returned. -/
inductive Event where
  | ack (tag : Nat) (multiple : Bool)
  | nack (tag : Nat) (multiple : Bool) (requeue : Bool)
  | matchVulnerability (vulnID : UUID)
  | matchAsset (assetID : UUID)
  | upsert (alert : Alert) (err : GoError)
  | publish (queueName : String) (msg : Message) (err : GoError)

/-- Everything the code receives from outside the repository. The functions of
the counter give the outcome of the interaction made at that counter value. -/
structure Env where
  /-- Result of `json.Unmarshal(body, &msg)` into a zero `queue.Message`; `none`
  when it returns an error. -/
  jsonUnmarshal : String → Option Message
  /-- Whether `json.Unmarshal(metadata, &asset.Metadata)` succeeds on these bytes. -/
  metadataDecodes : String → Bool
  /-- Result of `uuid.Parse`; `none` when it returns an error. -/
  uuidParse : String → Option UUID
  /-- Result of `UUID.String()`. -/
  uuidString : UUID → String
  /-- Result of `uuid.New()`. -/
  uuidNew : Nat → UUID
  /-- Value of SQL `NOW()` for the statement. -/
  now : Nat → Time
  /-- Whether the statement fails in the driver or the server for a reason other
  than its own row logic (connection loss, another constraint). -/
  queryFails : Nat → Bool
  /-- Whether `queue.Publish` returns an error. -/
  publishFails : Nat → Bool

/-- State of the system: the three tables, the messages the broker accepted, the
trace of actions and the interaction counter. The lists of rows are kept in the
order in which the listing queries return them. -/
structure World where
  assets : List AssetRow
  vulnerabilities : List Vulnerability
  alerts : List Alert
  published : List (String × Message)
  trace : List Event
  tick : Nat

/-! ## Alert ledger (`internal/repository/alert.go`) -/

/-- Conflict target of the upsert: equal `(tenant_id, asset_id, vulnerability_id)`. -/
def sameTriple (a b : Alert) : Bool :=
  decide (a.TenantID = b.TenantID ∧ a.AssetID = b.AssetID ∧ a.VulnerabilityID = b.VulnerabilityID)

/-- Condition `alerts.status = 'resolved' OR alerts.status = 'false_positive'` of
the `DO UPDATE ... WHERE` clause. -/
def refreshable (row : Alert) : Bool :=
  decide (row.Status = "resolved" ∨ row.Status = "false_positive")

/-- Row written by the `INSERT ... VALUES ($1, $2, $3, $4, $5, $6, NOW())` of
`Upsert`: `$6` is `domain.AlertStatusOpen`, column `resolved_at` is not listed and
stays `NULL`. -/
def insertedRow (alert : Alert) (now : Time) : Alert :=
  { ID := alert.ID, TenantID := alert.TenantID, AssetID := alert.AssetID,
    VulnerabilityID := alert.VulnerabilityID, Severity := alert.Severity,
    Status := AlertStatusOpen, MatchedAt := now, ResolvedAt := none }

/-- Assignment `SET severity = EXCLUDED.severity, matched_at = EXCLUDED.matched_at`. -/
def refreshedRow (row alert : Alert) (now : Time) : Alert :=
  { row with Severity := alert.Severity, MatchedAt := now }

/-- Outcome of `Upsert`: the returned error, the table afterwards and the
caller's alert afterwards (`Scan(&alert.MatchedAt)` writes into it). -/
structure UpsertResult where
  err : GoError
  rows : List Alert
  alert : Alert

/-- Method `AlertRepository.Upsert` on the table `rows`, with `now` the value of
`NOW()` and `queryFails` a driver failure. Without a conflicting row the new row
is inserted and `RETURNING` yields its `matched_at`. With a conflicting row the
update applies where the `WHERE` clause holds and `RETURNING` yields the new
`matched_at`; where it does not hold no row is returned, `Scan` gives
`pgx.ErrNoRows`, and the method still returns `nil`. -/
def Upsert (rows : List Alert) (now : Time) (queryFails : Bool) (alert : Alert) : UpsertResult :=
  if queryFails then
    { err := some "failed to upsert alert", rows := rows, alert := alert }
  else if rows.any (sameTriple alert) then
    if rows.any (fun row => sameTriple alert row && refreshable row) then
      { err := none,
        rows := rows.map (fun row =>
          if sameTriple alert row && refreshable row then refreshedRow row alert now else row),
        alert := { alert with MatchedAt := now } }
    else
      { err := none, rows := rows, alert := alert }
  else
    { err := none, rows := rows ++ [insertedRow alert now],
      alert := { alert with MatchedAt := now } }

/-- Method `AlertRepository.UpdateStatus`: the `UPDATE` on the rows with
`id = $2 AND tenant_id = $3`; zero affected rows give `alert not found`. -/
def UpdateStatus (rows : List Alert) (now : Time) (queryFails : Bool)
    (id tenantID : UUID) (status : String) : GoError × List Alert :=
  if queryFails then (some "failed to update alert status", rows)
  else if rows.any (fun row => decide (row.ID = id ∧ row.TenantID = tenantID)) then
    (none, rows.map (fun row =>
      if row.ID = id ∧ row.TenantID = tenantID then
        { row with
          Status := status,
          ResolvedAt := if status = "resolved" ∨ status = "false_positive" then some now else none,
          MatchedAt := if status = "open" then now else row.MatchedAt }
      else row))
  else (some "alert not found", rows)

/-- The table has at most one row per `(tenant_id, asset_id, vulnerability_id)`:
the unique constraint that `ON CONFLICT (tenant_id, asset_id, vulnerability_id)`
names. -/
def UniqueTriples (rows : List Alert) : Prop :=
  rows.Pairwise (fun a b => sameTriple a b = false)

instance (rows : List Alert) : Decidable (UniqueTriples rows) := by
  unfold UniqueTriples; infer_instance

/-- Number of rows of the table that carry the triple of `alert`. -/
def rowsFor (alert : Alert) (rows : List Alert) : Nat :=
  rows.countP (sameTriple alert)

/-- Calls of `Upsert` made one after the other, each with its own alert, its
own value of `NOW()` and its own driver outcome; the table is threaded through. -/
def upsertAll (rows : List Alert) : List (Alert × Time × Bool) → List Alert
  | [] => rows
  | (alert, now, queryFails) :: rest =>
    upsertAll (Upsert rows now queryFails alert).rows rest

/-! ## Repositories read by the matching engine -/

/-- Advance the interaction counter. -/
def World.step (w : World) : World := { w with tick := w.tick + 1 }

/-- Append an action to the trace. -/
def World.log (w : World) (e : Event) : World := { w with trace := w.trace ++ [e] }

/-- Method `AssetRepository.GetByID`: the row with `id = $1`; an error when the
query fails, when no row exists, or when the metadata column does not decode. -/
def AssetRepository_GetByID (env : Env) (w : World) (id : UUID) :
    Except String Asset × World :=
  if env.queryFails w.tick then (.error "failed to get asset", w.step)
  else
    match w.assets.find? (fun row => decide (row.asset.ID = id)) with
    | none => (.error "failed to get asset", w.step)
    | some row =>
      if env.metadataDecodes row.metadata then (.ok row.asset, w.step)
      else (.error "failed to unmarshal metadata", w.step)

/-- Method `AssetRepository.ListByTenant`: the rows with `tenant_id = $1`; the
metadata column is decoded only when it is non-empty. -/
def AssetRepository_ListByTenant (env : Env) (w : World) (tenantID : UUID) :
    Except String (List Asset) × World :=
  if env.queryFails w.tick then (.error "failed to list assets", w.step)
  else
    let rows := w.assets.filter (fun row => decide (row.asset.TenantID = tenantID))
    if rows.all (fun row => row.metadata.length = 0 || env.metadataDecodes row.metadata) then
      (.ok (rows.map (fun row => row.asset)), w.step)
    else (.error "failed to unmarshal metadata", w.step)

/-- Modelled from the spec: `VulnerabilityRepository.GetByID` is not among the
source files; "loads the vulnerability" is the catalog row with that id, and an
error when the query fails or no such row exists. -/
def VulnerabilityRepository_GetByID (env : Env) (w : World) (id : UUID) :
    Except String Vulnerability × World :=
  if env.queryFails w.tick then (.error "failed to get vulnerability", w.step)
  else
    match w.vulnerabilities.find? (fun v => decide (v.ID = id)) with
    | none => (.error "failed to get vulnerability", w.step)
    | some v => (.ok v, w.step)

/-- Modelled from the spec: `VulnerabilityRepository.List` is not among the source
files; the spec's words for this call are "enumerates the vulnerability catalog":
the result is the catalog, and an error when the query fails. The spec states no
effect of the search string, of the limit or of the offset that the call passes,
and none is modelled. -/
def VulnerabilityRepository_List (env : Env) (w : World) (_limit _offset : Nat) :
    Except String (List Vulnerability) × World :=
  if env.queryFails w.tick then (.error "failed to list vulnerabilities", w.step)
  else (.ok w.vulnerabilities, w.step)

/-! ## Event emitter and matching engine (`internal/service/match.go`) -/

/-- Method `queue.Client.Publish`: on success the broker holds the message. -/
def Client_Publish (env : Env) (w : World) (queueName : String) (msg : Message) :
    GoError × World :=
  if env.publishFails w.tick then
    (some "failed to publish message",
      (w.log (Event.publish queueName msg (some "failed to publish message"))).step)
  else
    (none,
      ({ w with published := w.published ++ [(queueName, msg)] }.log
        (Event.publish queueName msg none)).step)

/-- Method `publishWebhookEvent`: builds the envelope and publishes it on
`vulnpulse-jobs`; a publish error is logged and dropped. -/
def publishWebhookEvent (env : Env) (w : World) (tenantID : UUID) (eventType : String)
    (payload : List (String × JSONValue)) : World :=
  let msg : Message :=
    { Type_ := "webhook.dispatch",
      TenantID := env.uuidString tenantID,
      Payload := [("event_type", JSONValue.string eventType),
                  ("event_data", JSONValue.object payload)],
      Timestamp := 0 }
  (Client_Publish env w "vulnpulse-jobs" msg).2

/-- The `map[string]interface{}` literal passed to `publishWebhookEvent`. -/
def alertEventData (env : Env) (alert : Alert) (asset : Asset) (vuln : Vulnerability) :
    List (String × JSONValue) :=
  [("alert_id", JSONValue.string (env.uuidString alert.ID)),
   ("asset_id", JSONValue.string (env.uuidString asset.ID)),
   ("vulnerability_id", JSONValue.string (env.uuidString vuln.ID)),
   ("cve_id", JSONValue.string vuln.CveID),
   ("severity", JSONValue.string vuln.Severity)]

/-- The `&domain.Alert{...}` literal built for an affected pair; `ID` is the
`uuid.New()` drawn at the current counter, `MatchedAt` the zero time. -/
def newAlert (env : Env) (w : World) (asset : Asset) (vuln : Vulnerability) : Alert :=
  { ID := env.uuidNew w.tick, TenantID := asset.TenantID, AssetID := asset.ID,
    VulnerabilityID := vuln.ID, Severity := vuln.Severity, Status := AlertStatusOpen,
    MatchedAt := 0, ResolvedAt := none }

/-- The call `s.alertRepo.Upsert(ctx, alert)` made for an affected pair. -/
def pairUpsert (env : Env) (w : World) (asset : Asset) (vuln : Vulnerability) : UpsertResult :=
  Upsert w.alerts (env.now (w.tick + 1)) (env.queryFails (w.tick + 1)) (newAlert env w asset vuln)

/-- Body of the `if s.isAssetAffected(asset, vuln)` block shared by both fan-outs:
build the alert with a fresh id, `Upsert` it, `continue` on error, otherwise
publish for `tenantID`. (`matchCount` only feeds a log line and is left out.) -/
def upsertAndPublish (env : Env) (w : World) (tenantID : UUID) (asset : Asset)
    (vuln : Vulnerability) : World :=
  let alert := newAlert env w asset vuln
  let r := pairUpsert env w asset vuln
  let w2 := ({ w.step with alerts := r.rows }.log (Event.upsert alert r.err)).step
  match r.err with
  | some _ => w2
  | none =>
    publishWebhookEvent env w2 tenantID EventAlertCreated (alertEventData env r.alert asset vuln)

/-- One iteration of `for _, vuln := range vulns` in `MatchAsset`. -/
def matchAssetBody (env : Env) (asset : Asset) (w : World) (vuln : Vulnerability) : World :=
  if isAssetAffected asset vuln then upsertAndPublish env w asset.TenantID asset vuln
  else w

/-- Method `MatchService.MatchAsset`. -/
def MatchAsset (env : Env) (w : World) (assetID : UUID) : GoError × World :=
  let w0 := w.log (Event.matchAsset assetID)
  match AssetRepository_GetByID env w0 assetID with
  | (.error _, w1) => (some "failed to get asset", w1)
  | (.ok asset, w1) =>
    match VulnerabilityRepository_List env w1 1000 0 with
    | (.error _, w2) => (some "failed to list vulnerabilities", w2)
    | (.ok vulns, w2) => (none, vulns.foldl (matchAssetBody env asset) w2)

/-- Method `getTenantIDs`: the placeholder returns the empty slice. -/
def getTenantIDs : List UUID := []

/-- One iteration of `for _, asset := range assets` in `MatchVulnerability`. -/
def matchVulnerabilityBody (env : Env) (tenantID : UUID) (vuln : Vulnerability)
    (w : World) (asset : Asset) : World :=
  if isAssetAffected asset vuln then upsertAndPublish env w tenantID asset vuln
  else w

/-- One iteration of `for _, tenantID := range tenants` in `MatchVulnerability`:
a failed listing is logged and the tenant skipped. -/
def matchTenantBody (env : Env) (vuln : Vulnerability) (w : World) (tenantID : UUID) : World :=
  match AssetRepository_ListByTenant env w tenantID with
  | (.error _, w1) => w1
  | (.ok assets, w1) => assets.foldl (matchVulnerabilityBody env tenantID vuln) w1

/-- Method `MatchService.MatchVulnerability`. -/
def MatchVulnerability (env : Env) (w : World) (vulnID : UUID) : GoError × World :=
  let w0 := w.log (Event.matchVulnerability vulnID)
  match VulnerabilityRepository_GetByID env w0 vulnID with
  | (.error _, w1) => (some "failed to get vulnerability", w1)
  | (.ok vuln, w1) => (none, getTenantIDs.foldl (matchTenantBody env vuln) w1)

/-! ## Dispatch loop (`internal/worker/worker.go`) -/

/-- Method `handleVulnIngested`. -/
def handleVulnIngested (env : Env) (w : World) (msg : Message) : GoError × World :=
  match msg.Payload.lookup "vulnerability_id" with
  | some (JSONValue.string vulnIDStr) =>
    match env.uuidParse vulnIDStr with
    | none => (some "failed to parse vulnerability_id", w)
    | some vulnID => MatchVulnerability env w vulnID
  | _ => (some "invalid vulnerability_id in payload", w)

/-- Method `handleAssetChanged`. -/
def handleAssetChanged (env : Env) (w : World) (msg : Message) : GoError × World :=
  match msg.Payload.lookup "asset_id" with
  | some (JSONValue.string assetIDStr) =>
    match env.uuidParse assetIDStr with
    | none => (some "failed to parse asset_id", w)
    | some assetID => MatchAsset env w assetID
  | _ => (some "invalid asset_id in payload", w)

/-- Tail of `processMessage` after the `switch`: nack with requeue on a handler
error, ack otherwise. -/
def settle (delivery : Delivery) (r : GoError × World) : World :=
  match r.1 with
  | some _ => r.2.log (Event.nack delivery.DeliveryTag false true)
  | none => r.2.log (Event.ack delivery.DeliveryTag false)

/-- Method `Worker.processMessage`. -/
def processMessage (env : Env) (w : World) (delivery : Delivery) : World :=
  match env.jsonUnmarshal delivery.Body with
  | none => w.log (Event.nack delivery.DeliveryTag false false)
  | some msg =>
    if msg.Type_ = "vuln.ingested" then
      settle delivery (handleVulnIngested env w msg)
    else if msg.Type_ = "asset.changed" then
      settle delivery (handleAssetChanged env w msg)
    else if msg.Type_ = "webhook.dispatch" then
      w.log (Event.ack delivery.DeliveryTag false)
    else
      w.log (Event.nack delivery.DeliveryTag false false)

/-- Loop `for msg := range msgs` of `Worker.Start` over the delivered messages. -/
def Start (env : Env) (w : World) (msgs : List Delivery) : World :=
  msgs.foldl (processMessage env) w

/-! ## Observations on runs -/

/-- Whether the action is a call of `queue.Publish`. -/
def Event.isPublish : Event → Bool
  | Event.publish _ _ _ => true
  | _ => false

/-- Number of `queue.Publish` calls recorded in the trace. -/
def publishCount (w : World) : Nat := w.trace.countP Event.isPublish

/-- Whether `Upsert` inserts a new row: the statement runs and no row carries the
triple. -/
def upsertCreates (rows : List Alert) (queryFails : Bool) (alert : Alert) : Bool :=
  !queryFails && !rows.any (sameTriple alert)

/-- Whether `Upsert` refreshes a row: the statement runs and a row with the triple
has status `resolved` or `false_positive`. -/
def upsertRefreshes (rows : List Alert) (queryFails : Bool) (alert : Alert) : Bool :=
  !queryFails && rows.any (fun row => sameTriple alert row && refreshable row)

/-! ## Sample inputs -/

/-- An environment with a small parser table, no failures, ids `1000 + n` and
clock `50 + n`. -/
def sampleEnv : Env :=
  { jsonUnmarshal := fun body =>
      if body = "\x7b\"type\":\"unknown.kind\"\x7d" then
        some { Type_ := "unknown.kind", TenantID := "", Payload := [], Timestamp := 0 }
      else if body = "\x7b\"type\":\"vuln.ingested\",\"payload\":\x7b\x7d\x7d" then
        some { Type_ := "vuln.ingested", TenantID := "", Payload := [], Timestamp := 0 }
      else if body = "\x7b\"type\":\"asset.changed\",\"payload\":\x7b\"asset_id\":\"not-a-uuid\"\x7d\x7d" then
        some { Type_ := "asset.changed", TenantID := "",
               Payload := [("asset_id", JSONValue.string "not-a-uuid")], Timestamp := 0 }
      else if body = "\x7b\"type\":\"asset.changed\",\"payload\":\x7b\"asset_id\":\"00000000-0000-0000-0000-000000000001\"\x7d\x7d" then
        some { Type_ := "asset.changed", TenantID := "",
               Payload := [("asset_id", JSONValue.string "00000000-0000-0000-0000-000000000001")],
               Timestamp := 0 }
      else none,
    metadataDecodes := fun _ => true,
    uuidParse := fun s =>
      if s = "00000000-0000-0000-0000-000000000001" then some 1 else none,
    uuidString := fun u =>
      if u = 1 then "00000000-0000-0000-0000-000000000001" else "",
    uuidNew := fun n => 1000 + n,
    now := fun n => 50 + n,
    queryFails := fun _ => false,
    publishFails := fun _ => false }

/-- Asset `Nginx-Proxy` 1.18.0 of tenant 7, with id 1. -/
def sampleAsset : Asset :=
  { ID := 1, TenantID := 7, Name := "Nginx-Proxy", Type_ := "server", Version := some "1.18.0" }

/-- Vulnerability 2 affecting every version of `nginx`. -/
def sampleVuln : Vulnerability :=
  { ID := 2, CveID := "CVE-2024-0001", Title := "nginx overflow", Severity := "high",
    AffectedProducts := [{ Name := "nginx", Versions := ["*"] }] }

/-- The alert row of the sample pair with the given status. -/
def sampleRow (status : String) : Alert :=
  { ID := 500, TenantID := 7, AssetID := 1, VulnerabilityID := 2, Severity := "low",
    Status := status, MatchedAt := 10, ResolvedAt := none }

/-- A world holding the sample asset, the sample vulnerability and the given alerts. -/
def sampleWorld (alerts : List Alert) : World :=
  { assets := [{ asset := sampleAsset, metadata := "null" }],
    vulnerabilities := [sampleVuln],
    alerts := alerts, published := [], trace := [], tick := 0 }

/-! ## Sequences of ledger calls -/

/-- One call on the alert ledger with the values it meets: the arguments, the
value of `NOW()` and whether the statement fails in the driver. -/
inductive LedgerCall where
  | upsert (alert : Alert) (now : Time) (queryFails : Bool)
  | updateStatus (id tenantID : UUID) (status : String) (now : Time) (queryFails : Bool)

/-- The table after one ledger call. -/
def LedgerCall.apply (rows : List Alert) : LedgerCall → List Alert
  | LedgerCall.upsert alert now queryFails => (Upsert rows now queryFails alert).rows
  | LedgerCall.updateStatus id tenantID status now queryFails =>
    (UpdateStatus rows now queryFails id tenantID status).2

/-- The table after a sequence of ledger calls, made in order. -/
def runLedger (rows : List Alert) (calls : List LedgerCall) : List Alert :=
  calls.foldl LedgerCall.apply rows

/-! ## Further observations on runs -/

/-- The argument and the returned error of an `alertRepo.Upsert` call; nothing
for the other actions. -/
def Event.asUpsert : Event → Option (Alert × GoError)
  | Event.upsert alert err => some (alert, err)
  | _ => none

/-- The `alertRepo.Upsert` calls recorded in the trace, in order. -/
def upsertCalls (w : World) : List (Alert × GoError) := w.trace.filterMap Event.asUpsert

/-- What an `Upsert` call is about: tenant, asset, vulnerability, severity and
status of the alert passed in (its id is a fresh random value). -/
def upsertSubject (call : Alert × GoError) : UUID × UUID × UUID × String × String :=
  (call.1.TenantID, call.1.AssetID, call.1.VulnerabilityID, call.1.Severity, call.1.Status)

/-- Whether the action is an entry into `MatchVulnerability` or `MatchAsset`. -/
def Event.isMatchCall : Event → Bool
  | Event.matchVulnerability _ => true
  | Event.matchAsset _ => true
  | _ => false

/-- The entries into the two fan-out functions recorded in the trace, in order. -/
def matchCalls (w : World) : List Event := w.trace.filter Event.isMatchCall

/-! ## Further sample inputs -/

/-- Vulnerability 3 affecting one version of `apache`. -/
def sampleVulnApache : Vulnerability :=
  { ID := 3, CveID := "CVE-2024-0002", Title := "apache traversal", Severity := "medium",
    AffectedProducts := [{ Name := "apache", Versions := ["2.4.49"] }] }

/-- The sample world with a catalog of three entries, two of them affecting the
sample asset. -/
def sampleCatalogWorld : World :=
  { sampleWorld [] with
    vulnerabilities := [sampleVuln, sampleVulnApache, { sampleVuln with ID := 4, Severity := "low" }] }

/-- The sample environment with two more bodies in its parser table and one more
UUID string. -/
def sampleEnvMore : Env :=
  { sampleEnv with
    jsonUnmarshal := fun body =>
      if body = "\x7b\"type\":\"webhook.dispatch\",\"tenant_id\":\"t\",\"payload\":\x7b\"event_type\":\"alert.created\"\x7d\x7d" then
        some { Type_ := "webhook.dispatch", TenantID := "t",
               Payload := [("event_type", JSONValue.string "alert.created")], Timestamp := 0 }
      else if body = "\x7b\"type\":\"vuln.ingested\",\"payload\":\x7b\"vulnerability_id\":\"00000000-0000-0000-0000-000000000002\"\x7d\x7d" then
        some { Type_ := "vuln.ingested", TenantID := "",
               Payload := [("vulnerability_id",
                 JSONValue.string "00000000-0000-0000-0000-000000000002")],
               Timestamp := 0 }
      else sampleEnv.jsonUnmarshal body,
    uuidParse := fun s =>
      if s = "00000000-0000-0000-0000-000000000002" then some 2 else sampleEnv.uuidParse s }

/-- What a match operation reads and does apart from publishing: the three
tables, the interaction counter and the `Upsert` calls made so far. -/
def World.core (w : World) :
    List AssetRow × List Vulnerability × List Alert × Nat × List (Alert × GoError) :=
  (w.assets, w.vulnerabilities, w.alerts, w.tick, upsertCalls w)

/-! ## Changing the letter case of a name -/

/-- The other case of an ASCII letter; every other character is kept. -/
def flipCaseChar (c : Char) : Char :=
  if 'a' ≤ c ∧ c ≤ 'z' then Char.ofNat (c.toNat - 32)
  else if 'A' ≤ c ∧ c ≤ 'Z' then Char.ofNat (c.toNat + 32)
  else c

/-- Change the case of the letters at the positions where the mask is `true`;
positions beyond the mask are kept. -/
def changeCaseChars : List Bool → List Char → List Char
  | _, [] => []
  | [], cs => cs
  | b :: bs, c :: cs => (if b then flipCaseChar c else c) :: changeCaseChars bs cs

/-- A string with the letter case changed at the masked positions. -/
def changeCase (mask : List Bool) (s : String) : String := ⟨changeCaseChars mask s.data⟩

/-- Change the letter case of the names of the affected products, the n-th
product by the n-th mask; products beyond the masks are kept. -/
def changeProductCase : List (List Bool) → List AffectedProduct → List AffectedProduct
  | _, [] => []
  | [], ps => ps
  | m :: ms, p :: ps => { p with Name := changeCase m p.Name } :: changeProductCase ms ps

/-- The queue entry that the event emitter is to publish for an affected pair:
on `vulnpulse-jobs`, of type `webhook.dispatch`, addressed to the tenant that
owns the asset, with the two payload keys `event_type` and `event_data` and the
five fields of the pair in `event_data`. -/
def IsAlertEnvelope (env : Env) (asset : Asset) (vuln : Vulnerability) (alertID : UUID)
    (entry : String × Message) : Prop :=
  entry.1 = "vulnpulse-jobs" ∧
  entry.2.Type_ = "webhook.dispatch" ∧
  entry.2.TenantID = env.uuidString asset.TenantID ∧
  entry.2.Payload =
    [("event_type", JSONValue.string "alert.created"),
     ("event_data", JSONValue.object
        [("alert_id", JSONValue.string (env.uuidString alertID)),
         ("asset_id", JSONValue.string (env.uuidString asset.ID)),
         ("vulnerability_id", JSONValue.string (env.uuidString vuln.ID)),
         ("cve_id", JSONValue.string vuln.CveID),
         ("severity", JSONValue.string vuln.Severity)])]

/-! ## Role permissions (`pkg/auth/rbac.go`) -/

/-- Type `auth.Permission`, a string. -/
abbrev Permission := String

def PermissionCreateTenant : Permission := "tenant:create"
def PermissionListTenants : Permission := "tenant:list"
def PermissionCreateAsset : Permission := "asset:create"
def PermissionReadAsset : Permission := "asset:read"
def PermissionUpdateAsset : Permission := "asset:update"
def PermissionDeleteAsset : Permission := "asset:delete"
def PermissionIngestVuln : Permission := "vulnerability:ingest"
def PermissionReadVuln : Permission := "vulnerability:read"
def PermissionReadAlert : Permission := "alert:read"
def PermissionUpdateAlert : Permission := "alert:update"
def PermissionCreateWebhook : Permission := "webhook:create"
def PermissionReadWebhook : Permission := "webhook:read"
def PermissionUpdateWebhook : Permission := "webhook:update"
def PermissionDeleteWebhook : Permission := "webhook:delete"

/-- The map `rolePermissions`: the entry of a role, `none` when the map has no
such key. -/
def rolePermissions (role : String) : Option (List Permission) :=
  if role = "admin" then
    some [PermissionCreateTenant, PermissionListTenants, PermissionCreateAsset,
      PermissionReadAsset, PermissionUpdateAsset, PermissionDeleteAsset, PermissionIngestVuln,
      PermissionReadVuln, PermissionReadAlert, PermissionUpdateAlert, PermissionCreateWebhook,
      PermissionReadWebhook, PermissionUpdateWebhook, PermissionDeleteWebhook]
  else if role = "analyst" then
    some [PermissionCreateAsset, PermissionReadAsset, PermissionUpdateAsset,
      PermissionDeleteAsset, PermissionIngestVuln, PermissionReadVuln, PermissionReadAlert,
      PermissionUpdateAlert, PermissionCreateWebhook, PermissionReadWebhook,
      PermissionUpdateWebhook, PermissionDeleteWebhook]
  else if role = "viewer" then
    some [PermissionReadAsset, PermissionReadVuln, PermissionReadAlert, PermissionReadWebhook]
  else none

/-- Loop `for _, p := range permissions` of `HasPermission`: returns at the first
`p == permission`. -/
def permissionLoop (permission : Permission) : List Permission → Bool
  | [] => false
  | p :: rest => if p = permission then true else permissionLoop permission rest

/-- Function `auth.HasPermission`. -/
def HasPermission (role : String) (permission : Permission) : GoError :=
  match rolePermissions role with
  | none => some ("unknown role: " ++ role)
  | some permissions =>
    if permissionLoop permission permissions then none
    else some ("permission denied: " ++ role ++ " requires " ++ permission)

/-! ## Settlements of deliveries -/

/-- Whether the action settles a delivery: an ack or a nack. -/
def Event.isSettle : Event → Bool
  | Event.ack _ _ => true
  | Event.nack _ _ _ => true
  | _ => false

/-- The delivery tag of an ack or nack; nothing for the other actions. -/
def Event.settleTag : Event → Option Nat
  | Event.ack tag _ => some tag
  | Event.nack tag _ _ => some tag
  | _ => none

/-- The delivery tags of the acks and nacks recorded in the trace, in order. -/
def settledTags (w : World) : List Nat := w.trace.filterMap Event.settleTag

/-- The trace of `w2` is the trace of `w1` followed by actions none of which
settles a delivery: what a handler may do. -/
def HandlerRun (w1 w2 : World) : Prop :=
  ∃ added, w2.trace = w1.trace ++ added ∧ ∀ e ∈ added, e.isSettle = false

/-- Number of `Upsert` calls in the trace that returned no error. -/
def okUpsertCount (w : World) : Nat := (upsertCalls w).countP (fun call => call.2.isNone)

/-- The sample environment in which the statement issued at counter value 3
fails in the driver: in a run of `MatchAsset` from counter 0 that is the first
`Upsert`. -/
def sampleEnvFailing : Env :=
  { sampleEnv with queryFails := fun n => decide (n = 3) }

/-- The sample environment with distinct strings for the ids 500 and 1002. -/
def sampleEnvIds : Env :=
  { sampleEnv with
    uuidString := fun u =>
      if u = 500 then "00000000-0000-0000-0000-0000000001f4"
      else if u = 1002 then "00000000-0000-0000-0000-0000000003ea"
      else sampleEnv.uuidString u }

/-- An asset and a vulnerability whose names are written with letters outside
ASCII, in different case. -/
def unicodeAsset : Asset :=
  { ID := 11, TenantID := 7, Name := "ÉCLAIR-server", Type_ := "server", Version := some "1.0" }

def unicodeVuln : Vulnerability :=
  { ID := 12, CveID := "CVE-2024-0003", Title := "eclair", Severity := "low",
    AffectedProducts := [{ Name := "éclair", Versions := ["*"] }] }

theorem hasPrefixChars_iff (s p : List Char) : hasPrefixChars s p = true ↔ p <+: s := by
  induction s generalizing p with
  | nil =>
    cases p with
    | nil => simp [hasPrefixChars]
    | cons b p => simp [hasPrefixChars]
  | cons a s ih =>
    cases p with
    | nil => simp [hasPrefixChars]
    | cons b p =>
      simp only [hasPrefixChars]
      by_cases h : a = b
      · subst h
        simp [ih, List.cons_prefix_cons]
      · simp [h, List.cons_prefix_cons]
        intro h2; exact absurd h2.symm h

theorem containsChars_iff (s p : List Char) : containsChars s p = true ↔ p <:+: s := by
  induction s with
  | nil =>
    simp only [containsChars, hasPrefixChars_iff]
    simp [List.prefix_nil, List.infix_nil]
  | cons a s ih =>
    simp only [containsChars]
    rw [List.infix_cons_iff]
    by_cases h : hasPrefixChars (a :: s) p = true
    · simp [h, (hasPrefixChars_iff _ _).1 h]
    · have h2 : ¬ p <+: a :: s := fun hp => h ((hasPrefixChars_iff _ _).2 hp)
      simp [h, h2, ih]

theorem versionLoop_iff (av : Option String) (vs : List String) :
    versionLoop av vs = true ↔ (∃ v, av = some v ∧ v ∈ vs) ∨ "*" ∈ vs := by
  induction vs with
  | nil => simp [versionLoop]
  | cons x rest ih =>
    simp only [versionLoop]
    by_cases h : av = some x ∨ x = "*"
    · simp only [h, if_true, true_iff]
      rcases h with h | h
      · exact Or.inl ⟨x, h, List.mem_cons_self _ _⟩
      · exact Or.inr (h ▸ List.mem_cons_self _ _)
    · simp only [h, if_false, ih]
      push_neg at h
      constructor
      · rintro (⟨v, hv, hm⟩ | hm)
        · exact Or.inl ⟨v, hv, List.mem_cons_of_mem _ hm⟩
        · exact Or.inr (List.mem_cons_of_mem _ hm)
      · rintro (⟨v, hv, hm⟩ | hm)
        · rcases List.mem_cons.1 hm with e | hm
          · exact absurd (e ▸ hv) h.1
          · exact Or.inl ⟨v, hv, hm⟩
        · rcases List.mem_cons.1 hm with e | hm
          · exact absurd e.symm h.2
          · exact Or.inr hm

theorem wildcardLoop_iff (vs : List String) : wildcardLoop vs = true ↔ "*" ∈ vs := by
  induction vs with
  | nil => simp [wildcardLoop]
  | cons x rest ih =>
    simp only [wildcardLoop]
    by_cases h : x = "*"
    · simp [h]
    · simp only [h, if_false, ih, List.mem_cons]
      constructor
      · exact Or.inr
      · rintro (e | hm)
        · exact absurd e.symm h
        · exact hm

theorem affectedLoop_cons (asset : Asset) (p : AffectedProduct) (rest : List AffectedProduct) :
    affectedLoop asset (p :: rest) = true ↔
      ((strings_ToLower p.Name).data <:+: (strings_ToLower asset.Name).data ∧
        ((asset.Version = none ∧ p.Versions = []) ∨
          (∃ v, asset.Version = some v ∧ v ∈ p.Versions) ∨ "*" ∈ p.Versions)) ∨
      affectedLoop asset rest = true := by
  have hc : strings_Contains (strings_ToLower asset.Name) (strings_ToLower p.Name) = true ↔
      (strings_ToLower p.Name).data <:+: (strings_ToLower asset.Name).data :=
    containsChars_iff _ _
  rw [← hc]
  simp only [affectedLoop]
  by_cases hn : strings_Contains (strings_ToLower asset.Name) (strings_ToLower p.Name) = true
  · simp only [hn, if_true, true_and]
    cases hv : asset.Version with
    | none =>
      cases hl : p.Versions with
      | nil => simp
      | cons x xs =>
        have := wildcardLoop_iff (x :: xs)
        by_cases hw : wildcardLoop (x :: xs) = true
        · simp [hw, this.1 hw]
        · have hw2 : ¬ "*" ∈ x :: xs := fun h => hw (this.2 h)
          simp only [List.mem_cons] at hw2
          simp [hw, hw2]
    | some v =>
      cases hl : p.Versions with
      | nil => simp
      | cons x xs =>
        have := versionLoop_iff (some v) (x :: xs)
        by_cases hw : versionLoop (some v) (x :: xs) = true
        · have h3 := this.1 hw
          simp only [Option.some.injEq, exists_eq_left', List.mem_cons] at h3
          simp [hw, h3]
        · have hw2 : ¬ ((∃ v_1, some v = some v_1 ∧ v_1 ∈ x :: xs) ∨ "*" ∈ x :: xs) :=
            fun h => hw (this.2 h)
          simp only [Option.some.injEq, exists_eq_left', List.mem_cons] at hw2
          simp [hw, hw2]
  · simp [hn]

/-- C1: `isAssetAffected` returns true exactly when some affected-product entry
has a lower-cased name occurring in the lower-cased asset name and (a) the asset
has no version and the entry lists no versions, or (b) the asset's version is an
element of the entry's list, or (c) the list contains `"*"`. Lower-casing is that
of `strings.ToLower`: character by character, `A`..`Z` shifted by 32 and the
other ASCII characters kept, the characters above ASCII mapped through the
lower-case ranges of Unicode; so `ÉCLAIR-server` is affected through the entry
`éclair`, and the Kelvin sign lower-cases to `k`. -/
theorem isAssetAffected_iff (asset : Asset) (vuln : Vulnerability) :
    (isAssetAffected asset vuln = true ↔
      ∃ p ∈ vuln.AffectedProducts,
        (strings_ToLower p.Name).data <:+: (strings_ToLower asset.Name).data ∧
        ((asset.Version = none ∧ p.Versions = []) ∨
          (∃ v, asset.Version = some v ∧ v ∈ p.Versions) ∨
          "*" ∈ p.Versions)) ∧
    (∀ s : String, (strings_ToLower s).data = s.data.map toLowerChar) ∧
    (∀ c : Char, c.toNat ≤ 127 →
      toLowerChar c = if 'A' ≤ c ∧ c ≤ 'Z' then Char.ofNat (c.toNat + 32) else c) ∧
    (∀ c : Char, 127 < c.toNat →
      toLowerChar c = Char.ofNat (lowerCaseLoop c.toNat lowerCaseRanges)) ∧
    strings_ToLower "ÉCLAIR-server" = "éclair-server" ∧
    toLowerChar (Char.ofNat 8490) = 'k' ∧
    isAssetAffected unicodeAsset unicodeVuln = true := by
  refine ⟨?_, fun s => rfl, ?_, ?_, by decide, by decide, by decide⟩
  · unfold isAssetAffected
    induction vuln.AffectedProducts with
    | nil => simp [affectedLoop]
    | cons p rest ih =>
      rw [affectedLoop_cons, ih]
      simp only [List.mem_cons, exists_eq_or_imp]
  · intro c hc
    simp only [toLowerChar, hc, if_true]
  · intro c hc
    have : ¬ c.toNat ≤ 127 := by omega
    simp only [toLowerChar, this, if_false]

/-- C2: a delivery whose body does not parse as an envelope is negatively
acknowledged with requeue=false and nothing else happens: the run adds that one
action to the trace (no ack, no entry into `MatchVulnerability` or `MatchAsset`)
and leaves the rest of the world as it was. -/
theorem processMessage_malformed (env : Env) (w : World) (delivery : Delivery)
    (hparse : env.jsonUnmarshal delivery.Body = none) :
    processMessage env w delivery =
      { w with trace := w.trace ++ [Event.nack delivery.DeliveryTag false false] } := by
  simp [processMessage, hparse, World.log]

theorem processMessage_malformed_witness :
    sampleEnv.jsonUnmarshal (Delivery.mk 3 "\x7b\"type\":").Body = none ∧
    processMessage sampleEnv (sampleWorld []) (Delivery.mk 3 "\x7b\"type\":") =
      { sampleWorld [] with trace := (sampleWorld []).trace ++ [Event.nack 3 false false] } :=
  ⟨rfl, processMessage_malformed sampleEnv (sampleWorld []) (Delivery.mk 3 "\x7b\"type\":") rfl⟩

/-- C3: a parseable envelope whose type is none of `vuln.ingested`,
`asset.changed`, `webhook.dispatch` is negatively acknowledged with
requeue=false and no handler runs: the run adds that one action to the trace and
leaves the rest of the world as it was. -/
theorem processMessage_unknown_type (env : Env) (w : World) (delivery : Delivery)
    (msg : Message) (hparse : env.jsonUnmarshal delivery.Body = some msg)
    (h1 : msg.Type_ ≠ "vuln.ingested") (h2 : msg.Type_ ≠ "asset.changed")
    (h3 : msg.Type_ ≠ "webhook.dispatch") :
    processMessage env w delivery =
      { w with trace := w.trace ++ [Event.nack delivery.DeliveryTag false false] } := by
  simp [processMessage, hparse, h1, h2, h3, World.log]

theorem processMessage_unknown_type_witness :
    processMessage sampleEnv (sampleWorld [])
        (Delivery.mk 4 "\x7b\"type\":\"unknown.kind\"\x7d") =
      { sampleWorld [] with trace := (sampleWorld []).trace ++ [Event.nack 4 false false] } :=
  processMessage_unknown_type sampleEnv (sampleWorld [])
    (Delivery.mk 4 "\x7b\"type\":\"unknown.kind\"\x7d")
    { Type_ := "unknown.kind", TenantID := "", Payload := [], Timestamp := 0 }
    rfl (by decide) (by decide) (by decide)

/-- C4: for a parseable envelope of type `vuln.ingested` or `asset.changed`, the
run is the run of the handler of that type followed by one last action: an ack
when the handler returned no error, a nack with requeue=true when it returned
one. -/
theorem processMessage_handler_outcome (env : Env) (w : World) (delivery : Delivery)
    (msg : Message) (hparse : env.jsonUnmarshal delivery.Body = some msg)
    (htype : msg.Type_ = "vuln.ingested" ∨ msg.Type_ = "asset.changed") :
    processMessage env w delivery =
      let r := if msg.Type_ = "vuln.ingested" then handleVulnIngested env w msg
               else handleAssetChanged env w msg
      { r.2 with trace := r.2.trace ++
          [if r.1 = none then Event.ack delivery.DeliveryTag false
           else Event.nack delivery.DeliveryTag false true] } := by
  rcases htype with h | h
  · simp only [processMessage, hparse, h, if_true, settle, World.log]
    rcases handleVulnIngested env w msg with ⟨e, w2⟩
    cases e <;> simp
  · have hne : ¬ msg.Type_ = "vuln.ingested" := by rw [h]; decide
    simp only [processMessage, hparse, hne, h, if_true, if_false, settle, World.log]
    rcases handleAssetChanged env w msg with ⟨e, w2⟩
    cases e <;> simp

theorem processMessage_handler_outcome_witness :
    (processMessage sampleEnv (sampleWorld [])
        (Delivery.mk 5 "\x7b\"type\":\"asset.changed\",\"payload\":\x7b\"asset_id\":\"00000000-0000-0000-0000-000000000001\"\x7d\x7d")).trace.getLast?
      = some (Event.ack 5 false) := by
  rw [processMessage_handler_outcome sampleEnv (sampleWorld [])
    (Delivery.mk 5 "\x7b\"type\":\"asset.changed\",\"payload\":\x7b\"asset_id\":\"00000000-0000-0000-0000-000000000001\"\x7d\x7d")
    { Type_ := "asset.changed", TenantID := "",
      Payload := [("asset_id", JSONValue.string "00000000-0000-0000-0000-000000000001")],
      Timestamp := 0 }
    rfl (Or.inr rfl)]
  rfl

/-- C5 (the code at the failing inputs): an envelope of type `vuln.ingested`
without `vulnerability_id`, and an envelope of type `asset.changed` whose
`asset_id` is not a UUID, are each negatively acknowledged with requeue=true, and
nothing else happens. -/
theorem processMessage_invalid_payload_requeued :
    processMessage sampleEnv (sampleWorld [])
        (Delivery.mk 6 "\x7b\"type\":\"vuln.ingested\",\"payload\":\x7b\x7d\x7d") =
      { sampleWorld [] with trace := [Event.nack 6 false true] } ∧
    processMessage sampleEnv (sampleWorld [])
        (Delivery.mk 7 "\x7b\"type\":\"asset.changed\",\"payload\":\x7b\"asset_id\":\"not-a-uuid\"\x7d\x7d") =
      { sampleWorld [] with trace := [Event.nack 7 false true] } :=
  ⟨rfl, rfl⟩

/-! ### Event emitter -/

theorem publishCount_log (w : World) (e : Event) :
    publishCount (w.log e) = publishCount w + if e.isPublish = true then 1 else 0 := by
  simp [publishCount, World.log, List.countP_append, List.countP_cons]

theorem publishCount_publishWebhookEvent (env : Env) (w : World) (tenantID : UUID)
    (eventType : String) (payload : List (String × JSONValue)) :
    publishCount (publishWebhookEvent env w tenantID eventType payload) = publishCount w + 1 := by
  unfold publishWebhookEvent Client_Publish
  by_cases h : env.publishFails w.tick = true
  · simp [h, publishCount, World.log, World.step, List.countP_append, List.countP_cons,
      Event.isPublish]
  · simp [h, publishCount, World.log, World.step, List.countP_append, List.countP_cons,
      Event.isPublish]

/-- The block run for an affected pair calls `queue.Publish` once when the
`Upsert` returned no error and not at all when it returned one. -/
theorem publishCount_upsertAndPublish (env : Env) (w : World) (tenantID : UUID)
    (asset : Asset) (vuln : Vulnerability) :
    publishCount (upsertAndPublish env w tenantID asset vuln) =
      publishCount w + if (pairUpsert env w asset vuln).err = none then 1 else 0 := by
  cases herr : (pairUpsert env w asset vuln).err with
  | none =>
    simp only [upsertAndPublish, herr, publishCount_publishWebhookEvent, if_true]
    simp [publishCount, World.log, World.step, List.countP_append, List.countP_cons,
      Event.isPublish]
  | some e =>
    simp only [upsertAndPublish, herr]
    simp [publishCount, World.log, World.step, List.countP_append, List.countP_cons,
      Event.isPublish]

/-- The upsert of a pair returns an error exactly when the statement fails in the
driver; creation, refresh and no-op all return `nil`. -/
theorem pairUpsert_err_none_iff (env : Env) (w : World) (asset : Asset) (vuln : Vulnerability) :
    (pairUpsert env w asset vuln).err = none ↔ env.queryFails (w.tick + 1) = false := by
  unfold pairUpsert Upsert
  cases env.queryFails (w.tick + 1) with
  | true => simp
  | false =>
    simp only [Bool.false_eq_true, if_false, iff_true]
    split
    · split <;> rfl
    · rfl

/-- C6 (as stated, at a concrete input): the sample asset is affected by the
sample vulnerability and the ledger already holds an `open` row for the pair, so
the `Upsert` neither creates nor refreshes a row and the ledger is unchanged; yet
`MatchAsset` publishes one `webhook.dispatch` envelope. -/
theorem publish_on_noop_counterexample :
    isAssetAffected sampleAsset sampleVuln = true ∧
    upsertCreates (sampleWorld [sampleRow "open"]).alerts false
      (newAlert sampleEnv (sampleWorld [sampleRow "open"]) sampleAsset sampleVuln) = false ∧
    upsertRefreshes (sampleWorld [sampleRow "open"]).alerts false
      (newAlert sampleEnv (sampleWorld [sampleRow "open"]) sampleAsset sampleVuln) = false ∧
    (MatchAsset sampleEnv (sampleWorld [sampleRow "open"]) 1).2.alerts = [sampleRow "open"] ∧
    (MatchAsset sampleEnv (sampleWorld [sampleRow "open"]) 1).2.published.length = 1 ∧
    ¬ (publishCount (matchAssetBody sampleEnv sampleAsset (sampleWorld [sampleRow "open"]) sampleVuln)
          = publishCount (sampleWorld [sampleRow "open"]) + 1 ↔
        (upsertCreates (sampleWorld [sampleRow "open"]).alerts false
            (newAlert sampleEnv (sampleWorld [sampleRow "open"]) sampleAsset sampleVuln) = true ∨
         upsertRefreshes (sampleWorld [sampleRow "open"]).alerts false
            (newAlert sampleEnv (sampleWorld [sampleRow "open"]) sampleAsset sampleVuln) = true)) := by
  refine ⟨by decide, by decide, by decide, by decide, by decide, ?_⟩
  decide

/-- C6 (amended): for every pair found affected, in the loop body of `MatchAsset`
and in that of `MatchVulnerability`, `queue.Publish` is called once if the
`Upsert` for the pair returned no error and not at all if it returned one; and
the `Upsert` returns no error whenever its statement runs, be it a creation, a
refresh or a no-op on an `open` or `acknowledged` row. -/
theorem publish_iff_upsert_ok (env : Env) (w : World) (tenantID : UUID) (asset : Asset)
    (vuln : Vulnerability) (haff : isAssetAffected asset vuln = true) :
    publishCount (matchAssetBody env asset w vuln) =
      publishCount w + (if (pairUpsert env w asset vuln).err = none then 1 else 0) ∧
    publishCount (matchVulnerabilityBody env tenantID vuln w asset) =
      publishCount w + (if (pairUpsert env w asset vuln).err = none then 1 else 0) ∧
    ((pairUpsert env w asset vuln).err = none ↔ env.queryFails (w.tick + 1) = false) := by
  refine ⟨?_, ?_, pairUpsert_err_none_iff env w asset vuln⟩
  · simp only [matchAssetBody, haff, if_true]
    exact publishCount_upsertAndPublish env w asset.TenantID asset vuln
  · simp only [matchVulnerabilityBody, haff, if_true]
    exact publishCount_upsertAndPublish env w tenantID asset vuln

theorem publish_iff_upsert_ok_witness :
    isAssetAffected sampleAsset sampleVuln = true ∧
    publishCount (matchAssetBody sampleEnv sampleAsset (sampleWorld [sampleRow "acknowledged"])
      sampleVuln) = 1 :=
  ⟨by decide,
   (publish_iff_upsert_ok sampleEnv (sampleWorld [sampleRow "acknowledged"]) 7 sampleAsset
      sampleVuln (by decide)).1.trans (by decide)⟩

/-! ### Alert ledger -/

theorem sameTriple_comm (a b : Alert) : sameTriple a b = sameTriple b a := by
  unfold sameTriple
  apply decide_eq_decide.2
  constructor <;> rintro ⟨h1, h2, h3⟩ <;> exact ⟨h1.symm, h2.symm, h3.symm⟩

theorem sameTriple_trans {a b c : Alert} (h1 : sameTriple a b = true)
    (h2 : sameTriple b c = true) : sameTriple a c = true := by
  unfold sameTriple at *
  simp only [decide_eq_true_eq] at *
  exact ⟨h1.1.trans h2.1, h1.2.1.trans h2.2.1, h1.2.2.trans h2.2.2⟩

/-- In a table with unique triples, two rows with the triple of `alert` are the
same row. -/
theorem UniqueTriples.eq_of_sameTriple {rows : List Alert} (hu : UniqueTriples rows)
    {alert r1 r2 : Alert} (h1 : r1 ∈ rows) (h2 : r2 ∈ rows)
    (s1 : sameTriple alert r1 = true) (s2 : sameTriple alert r2 = true) : r1 = r2 := by
  have h12 : sameTriple r1 r2 = true :=
    sameTriple_trans (by rw [sameTriple_comm]; exact s1) s2
  have h21 : sameTriple r2 r1 = true := by rw [sameTriple_comm]; exact h12
  unfold UniqueTriples at hu
  induction rows with
  | nil => cases h1
  | cons x xs ih =>
    rw [List.pairwise_cons] at hu
    rcases List.mem_cons.1 h1 with e1 | m1
    · rcases List.mem_cons.1 h2 with e2 | m2
      · rw [e1, e2]
      · have := hu.1 r2 m2
        rw [← e1, h12] at this
        cases this
    · rcases List.mem_cons.1 h2 with e2 | m2
      · have := hu.1 r1 m1
        rw [← e2, h21] at this
        cases this
      · exact ih hu.2 m1 m2

/-- C7: when the table (with its unique triples) holds a row for the alert's
triple whose status is `open` or `acknowledged`, `Upsert` leaves the table as it
is, so that row keeps its severity, matched_at, status, id and resolved_at and no
row is added; the caller's alert is untouched too, and the call returns no error
unless the driver fails. -/
theorem Upsert_noop_on_live_row (rows : List Alert) (now : Time) (queryFails : Bool)
    (alert row : Alert) (hu : UniqueTriples rows) (hmem : row ∈ rows)
    (htriple : sameTriple alert row = true)
    (hstatus : row.Status = "open" ∨ row.Status = "acknowledged") :
    (Upsert rows now queryFails alert).rows = rows ∧
    (Upsert rows now queryFails alert).alert = alert ∧
    (queryFails = false → (Upsert rows now queryFails alert).err = none) := by
  have hany : rows.any (sameTriple alert) = true :=
    List.any_eq_true.2 ⟨row, hmem, htriple⟩
  have hnr : refreshable row = false := by
    unfold refreshable
    rcases hstatus with h | h <;> rw [h] <;> decide
  have hnone : rows.any (fun r => sameTriple alert r && refreshable r) = false := by
    rw [List.any_eq_false]
    intro r hr hc
    simp only [Bool.and_eq_true] at hc
    have := hu.eq_of_sameTriple hr hmem hc.1 htriple
    rw [this, hnr] at hc
    exact Bool.false_ne_true hc.2
  cases queryFails with
  | true => simp [Upsert]
  | false => simp [Upsert, hany, hnone]

theorem Upsert_noop_on_live_row_witness :
    (Upsert [sampleRow "acknowledged"] 99 false
        { sampleRow "open" with ID := 501, Severity := "critical" }).rows
      = [sampleRow "acknowledged"] ∧
    (Upsert [sampleRow "acknowledged"] 99 false
        { sampleRow "open" with ID := 501, Severity := "critical" }).err = none :=
  have h := Upsert_noop_on_live_row [sampleRow "acknowledged"] 99 false
    { sampleRow "open" with ID := 501, Severity := "critical" } (sampleRow "acknowledged")
    (by decide) (by decide) (by decide) (Or.inr (by decide))
  ⟨h.1, h.2.2 rfl⟩

/-- C8: when the table (with its unique triples) holds a row for the alert's
triple whose status is `resolved` or `false_positive`, `Upsert` replaces that row
by the same row with the alert's severity and `matched_at = now`, keeping its
status, id and resolved_at, leaves every other row alone, writes `now` into the
caller's alert and returns no error. -/
theorem Upsert_refreshes_closed_row (rows : List Alert) (now : Time) (alert row : Alert)
    (hu : UniqueTriples rows) (hmem : row ∈ rows) (htriple : sameTriple alert row = true)
    (hstatus : row.Status = "resolved" ∨ row.Status = "false_positive") :
    (Upsert rows now false alert).rows =
        rows.map (fun x => if x = row then refreshedRow row alert now else x) ∧
    (refreshedRow row alert now).Severity = alert.Severity ∧
    (refreshedRow row alert now).MatchedAt = now ∧
    (refreshedRow row alert now).Status = row.Status ∧
    (refreshedRow row alert now).ID = row.ID ∧
    (refreshedRow row alert now).ResolvedAt = row.ResolvedAt ∧
    (Upsert rows now false alert).alert = { alert with MatchedAt := now } ∧
    (Upsert rows now false alert).err = none := by
  have hany : rows.any (sameTriple alert) = true :=
    List.any_eq_true.2 ⟨row, hmem, htriple⟩
  have hr : refreshable row = true := by
    unfold refreshable
    exact decide_eq_true hstatus
  have hany2 : rows.any (fun r => sameTriple alert r && refreshable r) = true :=
    List.any_eq_true.2 ⟨row, hmem, by rw [htriple, hr]; rfl⟩
  have hmap : rows.map (fun r =>
        if (sameTriple alert r && refreshable r) = true then refreshedRow r alert now else r) =
      rows.map (fun x => if x = row then refreshedRow row alert now else x) := by
    apply List.map_congr_left
    intro x hx
    by_cases hc : (sameTriple alert x && refreshable x) = true
    · have hxr : x = row := by
        simp only [Bool.and_eq_true] at hc
        exact hu.eq_of_sameTriple hx hmem hc.1 htriple
      subst hxr
      simp [hc]
    · have hxr : x ≠ row := by
        intro e
        apply hc
        rw [e, htriple, hr]; rfl
      simp [hc, hxr]
  refine ⟨?_, rfl, rfl, rfl, rfl, rfl, ?_, ?_⟩
  · simp only [Upsert, hany, hany2, if_true, Bool.false_eq_true, if_false]
    exact hmap
  · simp [Upsert, hany, hany2]
  · simp [Upsert, hany, hany2]

theorem Upsert_refreshes_closed_row_witness :
    (Upsert [sampleRow "resolved"] 99 false
        { sampleRow "open" with ID := 501, Severity := "critical" }).rows
      = [{ sampleRow "resolved" with Severity := "critical", MatchedAt := 99 }] :=
  (Upsert_refreshes_closed_row [sampleRow "resolved"] 99
    { sampleRow "open" with ID := 501, Severity := "critical" } (sampleRow "resolved")
    (by decide) (by decide) (by decide) (Or.inl (by decide))).1.trans (by decide)

theorem Upsert_rows_of_absent (rows : List Alert) (now : Time) (alert : Alert)
    (habsent : ∀ r ∈ rows, sameTriple alert r = false) :
    (Upsert rows now false alert).rows = rows ++ [insertedRow alert now] ∧
    (Upsert rows now false alert).alert = { alert with MatchedAt := now } ∧
    (Upsert rows now false alert).err = none := by
  have hany : rows.any (sameTriple alert) = false := by
    rw [List.any_eq_false]
    intro r hr
    rw [habsent r hr]
    exact Bool.false_ne_true
  simp [Upsert, hany]

theorem sameTriple_insertedRow (alert : Alert) (now : Time) :
    sameTriple alert (insertedRow alert now) = true := by
  simp [sameTriple, insertedRow]

theorem rowsFor_append_insertedRow (rows : List Alert) (now : Time) (alert : Alert)
    (habsent : ∀ r ∈ rows, sameTriple alert r = false) :
    rowsFor alert (rows ++ [insertedRow alert now]) = 1 := by
  have hcount : rows.countP (sameTriple alert) = 0 := by
    rw [List.countP_eq_zero]
    intro r hr
    rw [habsent r hr]
    exact Bool.false_ne_true
  rw [rowsFor, List.countP_append, hcount]
  simp [List.countP_cons, sameTriple_insertedRow]

/-- C9: when no row carries the alert's triple, `Upsert` appends exactly one row:
it has the alert's id, triple and severity, status `open` whatever status the
caller's alert carries, `matched_at = now` and no `resolved_at`; afterwards the
triple has exactly one row, `now` is written into the caller's alert, and no
error is returned. -/
theorem Upsert_inserts_when_absent (rows : List Alert) (now : Time) (alert : Alert)
    (habsent : ∀ r ∈ rows, sameTriple alert r = false) :
    (Upsert rows now false alert).rows = rows ++ [insertedRow alert now] ∧
    (insertedRow alert now).ID = alert.ID ∧
    (insertedRow alert now).Status = "open" ∧
    (insertedRow alert now).Severity = alert.Severity ∧
    (insertedRow alert now).MatchedAt = now ∧
    (insertedRow alert now).ResolvedAt = none ∧
    sameTriple alert (insertedRow alert now) = true ∧
    rowsFor alert (Upsert rows now false alert).rows = 1 ∧
    (Upsert rows now false alert).alert = { alert with MatchedAt := now } ∧
    (Upsert rows now false alert).err = none := by
  have h := Upsert_rows_of_absent rows now alert habsent
  refine ⟨h.1, rfl, rfl, rfl, rfl, rfl, sameTriple_insertedRow alert now, ?_, h.2.1, h.2.2⟩
  rw [h.1]
  exact rowsFor_append_insertedRow rows now alert habsent

theorem Upsert_inserts_when_absent_witness :
    (Upsert [{ sampleRow "resolved" with ID := 400, AssetID := 9 }] 99 false
        { sampleRow "resolved" with Severity := "critical" }).rows
      = [{ sampleRow "resolved" with ID := 400, AssetID := 9 },
         { sampleRow "open" with Severity := "critical", MatchedAt := 99 }] :=
  (Upsert_inserts_when_absent [{ sampleRow "resolved" with ID := 400, AssetID := 9 }] 99
    { sampleRow "resolved" with Severity := "critical" } (by decide)).1.trans (by decide)

/-- Once the row inserted for a triple is in the table and no other row carries
the triple, a further `Upsert` on the triple changes nothing, whatever alert,
clock value and driver outcome it comes with. -/
theorem Upsert_after_insert (rows : List Alert) (first next : Alert) (t now : Time)
    (queryFails : Bool) (habsent : ∀ r ∈ rows, sameTriple first r = false)
    (hsame : sameTriple first next = true) :
    (Upsert (rows ++ [insertedRow first t]) now queryFails next).rows =
      rows ++ [insertedRow first t] := by
  have hins : sameTriple next (insertedRow first t) = true := by
    rw [sameTriple_comm]
    exact sameTriple_trans (by simp [sameTriple, insertedRow]) hsame
  have hany : (rows ++ [insertedRow first t]).any (sameTriple next) = true :=
    List.any_eq_true.2 ⟨insertedRow first t, by simp, hins⟩
  have hnone : (rows ++ [insertedRow first t]).any
      (fun r => sameTriple next r && refreshable r) = false := by
    rw [List.any_eq_false]
    intro r hr hc
    simp only [Bool.and_eq_true] at hc
    rcases List.mem_append.1 hr with h | h
    · have := habsent r h
      rw [sameTriple_trans hsame hc.1] at this
      cases this
    · rw [List.mem_singleton] at h
      rw [h] at hc
      have : refreshable (insertedRow first t) = false := by
        simp [refreshable, insertedRow, AlertStatusOpen]
      rw [this] at hc
      exact Bool.false_ne_true hc.2
  cases queryFails with
  | true => simp [Upsert]
  | false => simp [Upsert, hany, hnone]

theorem upsertAll_after_insert (rows : List Alert) (first : Alert) (t : Time)
    (habsent : ∀ r ∈ rows, sameTriple first r = false)
    (calls : List (Alert × Time × Bool))
    (hsame : ∀ c ∈ calls, sameTriple first c.1 = true) :
    upsertAll (rows ++ [insertedRow first t]) calls = rows ++ [insertedRow first t] := by
  induction calls with
  | nil => rfl
  | cons c rest ih =>
    obtain ⟨a, now, qf⟩ := c
    simp only [upsertAll]
    rw [Upsert_after_insert rows first a t now qf habsent (hsame _ (List.mem_cons_self _ _))]
    exact ih (fun c hc => hsame c (List.mem_cons_of_mem _ hc))

/-- C10: starting from a table without a row for the triple, `N ≥ 1` calls of
`Upsert` on that triple (the first one reaching the database, each later one with
any alert of the triple, any clock value and any driver outcome) leave the table
with the single row inserted by the first call appended: exactly one row carries
the triple, and its `matched_at` and severity are those of the first call. -/
theorem Upsert_idempotent (rows : List Alert) (first : Alert) (t : Time)
    (later : List (Alert × Time × Bool))
    (habsent : ∀ r ∈ rows, sameTriple first r = false)
    (hsame : ∀ c ∈ later, sameTriple first c.1 = true) :
    upsertAll rows ((first, t, false) :: later) = rows ++ [insertedRow first t] ∧
    rowsFor first (upsertAll rows ((first, t, false) :: later)) = 1 ∧
    (∀ r ∈ upsertAll rows ((first, t, false) :: later), sameTriple first r = true →
      r.MatchedAt = t ∧ r.Severity = first.Severity ∧ r.Status = "open") := by
  have hall : upsertAll rows ((first, t, false) :: later) = rows ++ [insertedRow first t] := by
    simp only [upsertAll]
    rw [(Upsert_rows_of_absent rows t first habsent).1]
    exact upsertAll_after_insert rows first t habsent later hsame
  refine ⟨hall, ?_, ?_⟩
  · rw [hall]
    exact rowsFor_append_insertedRow rows t first habsent
  · intro r hr hs
    rw [hall] at hr
    rcases List.mem_append.1 hr with h | h
    · rw [habsent r h] at hs
      cases hs
    · rw [List.mem_singleton] at h
      rw [h]
      exact ⟨rfl, rfl, rfl⟩

theorem Upsert_idempotent_witness :
    upsertAll [{ sampleRow "resolved" with ID := 400, AssetID := 9 }]
        [(sampleRow "open", 20, false),
         ({ sampleRow "open" with ID := 501, Severity := "critical" }, 30, false),
         ({ sampleRow "open" with ID := 502 }, 40, true),
         ({ sampleRow "open" with ID := 503, Severity := "medium" }, 50, false)]
      = [{ sampleRow "resolved" with ID := 400, AssetID := 9 },
         { sampleRow "open" with MatchedAt := 20 }] :=
  (Upsert_idempotent [{ sampleRow "resolved" with ID := 400, AssetID := 9 }]
    (sampleRow "open") 20
    [({ sampleRow "open" with ID := 501, Severity := "critical" }, 30, false),
     ({ sampleRow "open" with ID := 502 }, 40, true),
     ({ sampleRow "open" with ID := 503, Severity := "medium" }, 50, false)]
    (by decide) (by decide)).1.trans (by decide)

/-! ### Ledger invariant -/

theorem sameTriple_refreshedRow (a row alert : Alert) (now : Time) :
    sameTriple a (refreshedRow row alert now) = sameTriple a row := rfl

theorem sameTriple_refreshedRow_left (row alert b : Alert) (now : Time) :
    sameTriple (refreshedRow row alert now) b = sameTriple row b := rfl

/-- A map that keeps the triple of every row keeps the triples unique. -/
theorem UniqueTriples.map_of_sameTriple {rows : List Alert} (hu : UniqueTriples rows)
    (f : Alert → Alert) (hf : ∀ r, (f r).TenantID = r.TenantID ∧ (f r).AssetID = r.AssetID ∧
      (f r).VulnerabilityID = r.VulnerabilityID) : UniqueTriples (rows.map f) := by
  unfold UniqueTriples at *
  rw [List.pairwise_map]
  refine hu.imp ?_
  intro a b hab
  have ha := hf a
  have hb := hf b
  unfold sameTriple at *
  rw [ha.1, ha.2.1, ha.2.2, hb.1, hb.2.1, hb.2.2]
  exact hab

theorem rowsFor_map_of_sameTriple (alert : Alert) (rows : List Alert) (f : Alert → Alert)
    (hf : ∀ r, (f r).TenantID = r.TenantID ∧ (f r).AssetID = r.AssetID ∧
      (f r).VulnerabilityID = r.VulnerabilityID) :
    rowsFor alert (rows.map f) = rowsFor alert rows := by
  unfold rowsFor
  rw [List.countP_map]
  congr 1
  funext r
  have h := hf r
  simp only [Function.comp, sameTriple]
  rw [h.1, h.2.1, h.2.2]

theorem Upsert_preserves_unique (rows : List Alert) (now : Time) (queryFails : Bool)
    (alert : Alert) (hu : UniqueTriples rows) :
    UniqueTriples (Upsert rows now queryFails alert).rows := by
  unfold Upsert
  split
  · exact hu
  · split
    · split
      · apply hu.map_of_sameTriple
        intro r
        split <;> exact ⟨rfl, rfl, rfl⟩
      · exact hu
    · rename_i hany
      unfold UniqueTriples at *
      rw [List.pairwise_append]
      refine ⟨hu, List.pairwise_singleton _ _, ?_⟩
      intro a ha b hb
      rw [List.mem_singleton] at hb
      subst hb
      have h1 : sameTriple alert a = false := by
        cases h : sameTriple alert a
        · rfl
        · exact absurd (List.any_eq_true.2 ⟨a, ha, h⟩) hany
      rw [sameTriple_comm]
      exact h1

theorem UpdateStatus_preserves_unique (rows : List Alert) (now : Time) (queryFails : Bool)
    (id tenantID : UUID) (status : String) (hu : UniqueTriples rows) :
    UniqueTriples (UpdateStatus rows now queryFails id tenantID status).2 := by
  unfold UpdateStatus
  split
  · exact hu
  · split
    · apply hu.map_of_sameTriple
      intro r
      split <;> exact ⟨rfl, rfl, rfl⟩
    · exact hu

theorem runLedger_preserves_unique (calls : List LedgerCall) (rows : List Alert)
    (hu : UniqueTriples rows) : UniqueTriples (runLedger rows calls) := by
  induction calls generalizing rows with
  | nil => exact hu
  | cons c rest ih =>
    simp only [runLedger, List.foldl_cons]
    apply ih
    cases c with
    | upsert alert now queryFails => exact Upsert_preserves_unique rows now queryFails alert hu
    | updateStatus id tenantID status now queryFails =>
      exact UpdateStatus_preserves_unique rows now queryFails id tenantID status hu

/-- In a table with unique triples every triple has at most one row. -/
theorem UniqueTriples.rowsFor_le_one {rows : List Alert} (hu : UniqueTriples rows)
    (alert : Alert) : rowsFor alert rows ≤ 1 := by
  unfold UniqueTriples at hu
  unfold rowsFor
  induction rows with
  | nil => simp
  | cons x xs ih =>
    rw [List.pairwise_cons] at hu
    rw [List.countP_cons]
    by_cases hx : sameTriple alert x = true
    · have hz : xs.countP (sameTriple alert) = 0 := by
        rw [List.countP_eq_zero]
        intro r hr hc
        have h1 := hu.1 r hr
        have h2 : sameTriple x r = true := sameTriple_trans (by rw [sameTriple_comm]; exact hx) hc
        rw [h2] at h1
        cases h1
      simp [hx, hz]
    · simp only [hx, if_false, Bool.false_eq_true]
      exact ih hu.2

/-- In a table with unique triples that holds a row of the triple, the triple
has exactly one row. -/
theorem UniqueTriples.rowsFor_eq_one {rows : List Alert} (hu : UniqueTriples rows)
    (alert : Alert) (hany : rows.any (sameTriple alert) = true) : rowsFor alert rows = 1 := by
  have hle := hu.rowsFor_le_one alert
  have hpos : 0 < rowsFor alert rows := by
    unfold rowsFor
    rw [List.countP_pos_iff]
    obtain ⟨r, hr, hs⟩ := List.any_eq_true.1 hany
    exact ⟨r, hr, hs⟩
  omega

theorem Upsert_rowsFor_of_ok (rows : List Alert) (now : Time) (queryFails : Bool)
    (alert : Alert) (hu : UniqueTriples rows)
    (hok : (Upsert rows now queryFails alert).err = none) :
    rowsFor alert (Upsert rows now queryFails alert).rows = 1 := by
  cases queryFails with
  | true => simp [Upsert] at hok
  | false =>
    by_cases hany : rows.any (sameTriple alert) = true
    · have hone := hu.rowsFor_eq_one alert hany
      by_cases hr : rows.any (fun row => sameTriple alert row && refreshable row) = true
      · simp only [Upsert, Bool.false_eq_true, if_false, hany, if_true, hr]
        rw [rowsFor_map_of_sameTriple]
        · exact hone
        · intro r
          split <;> exact ⟨rfl, rfl, rfl⟩
      · simp only [Upsert, Bool.false_eq_true, if_false, hany, if_true, hr]
        exact hone
    · have habsent : ∀ r ∈ rows, sameTriple alert r = false := by
        intro r hr
        cases h : sameTriple alert r
        · rfl
        · exact absurd (List.any_eq_true.2 ⟨r, hr, h⟩) hany
      rw [(Upsert_rows_of_absent rows now alert habsent).1]
      exact rowsFor_append_insertedRow rows now alert habsent

/-- C11: starting from the empty ledger, after any sequence of `Upsert` and
`UpdateStatus` calls (whatever their arguments, clock values and driver
outcomes) no two rows share a `(tenant_id, asset_id, vulnerability_id)` triple,
so every triple has at most one row; and a further `Upsert(alert)` that returns
no error leaves exactly one row for the triple of `alert`. -/
theorem ledger_one_row_per_triple (calls : List LedgerCall) (alert : Alert) (now : Time)
    (queryFails : Bool)
    (hok : (Upsert (runLedger [] calls) now queryFails alert).err = none) :
    UniqueTriples (runLedger [] calls) ∧
    (∀ a : Alert, rowsFor a (runLedger [] calls) ≤ 1) ∧
    UniqueTriples (Upsert (runLedger [] calls) now queryFails alert).rows ∧
    rowsFor alert (Upsert (runLedger [] calls) now queryFails alert).rows = 1 := by
  have hu : UniqueTriples (runLedger [] calls) :=
    runLedger_preserves_unique calls [] List.Pairwise.nil
  exact ⟨hu, fun a => hu.rowsFor_le_one a,
    Upsert_preserves_unique _ now queryFails alert hu,
    Upsert_rowsFor_of_ok _ now queryFails alert hu hok⟩

theorem ledger_one_row_per_triple_witness :
    rowsFor (sampleRow "open")
      (Upsert (runLedger []
        [LedgerCall.upsert (sampleRow "open") 20 false,
         LedgerCall.updateStatus 500 7 "resolved" 30 false,
         LedgerCall.upsert { sampleRow "open" with ID := 501, AssetID := 9 } 40 false])
        50 false { sampleRow "open" with ID := 502, Severity := "critical" }).rows = 1 :=
  (ledger_one_row_per_triple
    [LedgerCall.upsert (sampleRow "open") 20 false,
     LedgerCall.updateStatus 500 7 "resolved" 30 false,
     LedgerCall.upsert { sampleRow "open" with ID := 501, AssetID := 9 } 40 false]
    { sampleRow "open" with ID := 502, Severity := "critical" } 50 false rfl).2.2.2

/-! ### Fan-out -/

theorem upsertCalls_publishWebhookEvent (env : Env) (w : World) (tenantID : UUID)
    (eventType : String) (payload : List (String × JSONValue)) :
    upsertCalls (publishWebhookEvent env w tenantID eventType payload) = upsertCalls w := by
  unfold publishWebhookEvent Client_Publish
  by_cases h : env.publishFails w.tick = true
  · simp [h, upsertCalls, World.log, World.step, List.filterMap_append, Event.asUpsert]
  · simp [h, upsertCalls, World.log, World.step, List.filterMap_append, Event.asUpsert]

/-- The block run for an affected pair makes exactly one `Upsert` call, for the
alert built from the pair. -/
theorem upsertCalls_upsertAndPublish (env : Env) (w : World) (tenantID : UUID)
    (asset : Asset) (vuln : Vulnerability) :
    upsertCalls (upsertAndPublish env w tenantID asset vuln) =
      upsertCalls w ++ [(newAlert env w asset vuln, (pairUpsert env w asset vuln).err)] := by
  cases herr : (pairUpsert env w asset vuln).err with
  | none =>
    simp only [upsertAndPublish, herr, upsertCalls_publishWebhookEvent]
    simp [upsertCalls, World.log, World.step, List.filterMap_append, Event.asUpsert]
  | some e =>
    simp only [upsertAndPublish, herr]
    simp [upsertCalls, World.log, World.step, List.filterMap_append, Event.asUpsert]

theorem upsertSubjects_matchAssetBody (env : Env) (asset : Asset) (w : World)
    (vuln : Vulnerability) :
    (upsertCalls (matchAssetBody env asset w vuln)).map upsertSubject =
      (upsertCalls w).map upsertSubject ++
        (if isAssetAffected asset vuln = true
          then [(asset.TenantID, asset.ID, vuln.ID, vuln.Severity, "open")] else []) := by
  unfold matchAssetBody
  by_cases h : isAssetAffected asset vuln = true
  · simp only [h, if_true, upsertCalls_upsertAndPublish, List.map_append]
    rfl
  · simp [h]

theorem upsertSubjects_foldl_matchAssetBody (env : Env) (asset : Asset)
    (vulns : List Vulnerability) (w : World) :
    (upsertCalls (vulns.foldl (matchAssetBody env asset) w)).map upsertSubject =
      (upsertCalls w).map upsertSubject ++
        (vulns.filter (fun v => isAssetAffected asset v)).map
          (fun v => (asset.TenantID, asset.ID, v.ID, v.Severity, "open")) := by
  induction vulns generalizing w with
  | nil => simp
  | cons v rest ih =>
    rw [List.foldl_cons, ih, upsertSubjects_matchAssetBody]
    by_cases h : isAssetAffected asset v = true
    · simp [h, List.filter_cons]
    · simp [h, List.filter_cons]

theorem upsertCalls_step (w : World) : upsertCalls w.step = upsertCalls w := rfl

theorem upsertCalls_GetByID (env : Env) (w : World) (id : UUID) :
    upsertCalls (AssetRepository_GetByID env w id).2 = upsertCalls w := by
  unfold AssetRepository_GetByID
  split
  · rfl
  · split
    · rfl
    · split <;> rfl

theorem upsertCalls_List (env : Env) (w : World) (limit offset : Nat) :
    upsertCalls (VulnerabilityRepository_List env w limit offset).2 = upsertCalls w := by
  unfold VulnerabilityRepository_List
  split <;> rfl

/-- C12: when the asset loads and the catalog returns a list, the `Upsert` calls
that `MatchAsset` adds to the trace are, in list order, one call for each listed
vulnerability with `isAssetAffected asset vuln = true` (for the asset's tenant
and id, the vulnerability's id and severity, status `open`) and no other call;
this holds from every world, whatever the ledger and the trace already hold. -/
theorem MatchAsset_upserts_affected (env : Env) (w w1 w2 : World) (assetID : UUID)
    (asset : Asset) (vulns : List Vulnerability)
    (hasset : AssetRepository_GetByID env (w.log (Event.matchAsset assetID)) assetID =
      (Except.ok asset, w1))
    (hlist : VulnerabilityRepository_List env w1 1000 0 = (Except.ok vulns, w2)) :
    (upsertCalls (MatchAsset env w assetID).2).map upsertSubject =
      (upsertCalls w).map upsertSubject ++
        (vulns.filter (fun v => isAssetAffected asset v)).map
          (fun v => (asset.TenantID, asset.ID, v.ID, v.Severity, "open")) := by
  have h1 : upsertCalls w1 = upsertCalls w := by
    have := upsertCalls_GetByID env (w.log (Event.matchAsset assetID)) assetID
    rw [hasset] at this
    rw [this]
    simp [upsertCalls, World.log, List.filterMap_append, Event.asUpsert]
  have h2 : upsertCalls w2 = upsertCalls w1 := by
    have := upsertCalls_List env w1 1000 0
    rw [hlist] at this
    exact this
  simp only [MatchAsset, hasset, hlist]
  rw [upsertSubjects_foldl_matchAssetBody, h2, h1]

theorem MatchAsset_upserts_affected_witness :
    (upsertCalls (MatchAsset sampleEnv sampleCatalogWorld 1).2).map upsertSubject =
      [(7, 1, 2, "high", "open"), (7, 1, 4, "low", "open")] :=
  (MatchAsset_upserts_affected sampleEnv sampleCatalogWorld
    (sampleCatalogWorld.log (Event.matchAsset 1)).step
    ((sampleCatalogWorld.log (Event.matchAsset 1)).step).step 1 sampleAsset
    sampleCatalogWorld.vulnerabilities rfl rfl).trans (by decide)

/-- `MatchVulnerability` ranges over the tenants that `getTenantIDs` returns, and
that list is empty: whatever the world holds, it makes no `Upsert` call, leaves
the ledger alone and publishes nothing. -/
theorem MatchVulnerability_does_nothing (env : Env) (w : World) (vulnID : UUID) :
    upsertCalls (MatchVulnerability env w vulnID).2 = upsertCalls w ∧
    (MatchVulnerability env w vulnID).2.alerts = w.alerts ∧
    (MatchVulnerability env w vulnID).2.published = w.published := by
  unfold MatchVulnerability VulnerabilityRepository_GetByID
  simp only [getTenantIDs, List.foldl_nil]
  split
  · rename_i h
    split at h
    · cases h
      simp [upsertCalls, World.log, World.step, List.filterMap_append, Event.asUpsert]
    · split at h
      all_goals cases h
      all_goals simp [upsertCalls, World.log, World.step, List.filterMap_append, Event.asUpsert]
  · rename_i h
    split at h
    · cases h
    · split at h
      all_goals cases h
      all_goals simp [upsertCalls, World.log, World.step, List.filterMap_append, Event.asUpsert]

/-- C13 (the code at the failing input): one tenant owns one asset, the asset is
affected by vulnerability 2, every query and publish succeeds; `MatchVulnerability`
returns no error, makes no `Upsert` call, inserts no row and publishes nothing. -/
theorem MatchVulnerability_finds_no_asset :
    (sampleWorld []).assets.map (fun row => row.asset) = [sampleAsset] ∧
    isAssetAffected sampleAsset sampleVuln = true ∧
    (MatchVulnerability sampleEnv (sampleWorld []) 2).1 = none ∧
    upsertCalls (MatchVulnerability sampleEnv (sampleWorld []) 2).2 = [] ∧
    (MatchVulnerability sampleEnv (sampleWorld []) 2).2.alerts = [] ∧
    (MatchVulnerability sampleEnv (sampleWorld []) 2).2.published = [] :=
  ⟨rfl, by decide, rfl, rfl, rfl, rfl⟩

/-! ### Publish failures -/

theorem core_eq_iff (w1 w2 : World) :
    w1.core = w2.core ↔
      w1.assets = w2.assets ∧ w1.vulnerabilities = w2.vulnerabilities ∧
      w1.alerts = w2.alerts ∧ w1.tick = w2.tick ∧ upsertCalls w1 = upsertCalls w2 := by
  simp [World.core, Prod.ext_iff]

theorem core_publishWebhookEvent (env : Env) (w : World) (tenantID : UUID)
    (eventType : String) (payload : List (String × JSONValue)) :
    (publishWebhookEvent env w tenantID eventType payload).core =
      (w.assets, w.vulnerabilities, w.alerts, w.tick + 1, upsertCalls w) := by
  have hu := upsertCalls_publishWebhookEvent env w tenantID eventType payload
  unfold World.core
  rw [hu]
  unfold publishWebhookEvent Client_Publish
  by_cases h : env.publishFails w.tick = true
  · simp [h, World.log, World.step]
  · simp [h, World.log, World.step]

/-- The block run for an affected pair, seen apart from publishing, under two
environments that differ in the publish outcomes only. -/
theorem core_upsertAndPublish (env : Env) (publishFails : Nat → Bool) (w1 w2 : World)
    (tenantID : UUID) (asset : Asset) (vuln : Vulnerability) (h : w1.core = w2.core) :
    (upsertAndPublish { env with publishFails := publishFails } w1 tenantID asset vuln).core =
      (upsertAndPublish env w2 tenantID asset vuln).core := by
  obtain ⟨ha, hv, hal, ht, hu⟩ := (core_eq_iff w1 w2).1 h
  have hnew : newAlert { env with publishFails := publishFails } w1 asset vuln =
      newAlert env w2 asset vuln := by
    simp [newAlert, ht]
  have hup : pairUpsert { env with publishFails := publishFails } w1 asset vuln =
      pairUpsert env w2 asset vuln := by
    simp only [pairUpsert, hnew, hal, ht]
  cases herr : (pairUpsert env w2 asset vuln).err with
  | none =>
    have herr1 := herr
    rw [← hup] at herr1
    simp only [upsertAndPublish, herr, herr1, core_publishWebhookEvent]
    rw [hup, hnew]
    simp [World.log, World.step, upsertCalls, List.filterMap_append, Event.asUpsert,
      ha, hv, ht]
    exact hu
  | some e =>
    have herr1 := herr
    rw [← hup] at herr1
    simp only [upsertAndPublish, herr, herr1]
    rw [hup, hnew]
    simp [World.core, World.log, World.step, upsertCalls, List.filterMap_append,
      Event.asUpsert, ha, hv, ht]
    exact hu

theorem core_foldl_matchAssetBody (env : Env) (publishFails : Nat → Bool) (asset : Asset)
    (vulns : List Vulnerability) (w1 w2 : World) (h : w1.core = w2.core) :
    (vulns.foldl (matchAssetBody { env with publishFails := publishFails } asset) w1).core =
      (vulns.foldl (matchAssetBody env asset) w2).core := by
  induction vulns generalizing w1 w2 with
  | nil => exact h
  | cons v rest ih =>
    simp only [List.foldl_cons]
    apply ih
    unfold matchAssetBody
    by_cases ha : isAssetAffected asset v = true
    · simp only [ha, if_true]
      exact core_upsertAndPublish env publishFails w1 w2 asset.TenantID asset v h
    · simp only [ha, if_false, Bool.false_eq_true]
      exact h

theorem core_foldl_matchVulnerabilityBody (env : Env) (publishFails : Nat → Bool)
    (tenantID : UUID) (vuln : Vulnerability) (assets : List Asset) (w1 w2 : World)
    (h : w1.core = w2.core) :
    (assets.foldl (matchVulnerabilityBody { env with publishFails := publishFails }
        tenantID vuln) w1).core =
      (assets.foldl (matchVulnerabilityBody env tenantID vuln) w2).core := by
  induction assets generalizing w1 w2 with
  | nil => exact h
  | cons a rest ih =>
    simp only [List.foldl_cons]
    apply ih
    unfold matchVulnerabilityBody
    by_cases ha : isAssetAffected a vuln = true
    · simp only [ha, if_true]
      exact core_upsertAndPublish env publishFails w1 w2 tenantID a vuln h
    · simp only [ha, if_false, Bool.false_eq_true]
      exact h

theorem core_step (w1 w2 : World) (h : w1.core = w2.core) : w1.step.core = w2.step.core := by
  obtain ⟨ha, hv, hal, ht, hu⟩ := (core_eq_iff w1 w2).1 h
  rw [core_eq_iff]
  exact ⟨ha, hv, hal, by simp [World.step, ht], hu⟩

theorem core_GetByID (env : Env) (publishFails : Nat → Bool) (w1 w2 : World) (id : UUID)
    (h : w1.core = w2.core) :
    (AssetRepository_GetByID { env with publishFails := publishFails } w1 id).1 =
      (AssetRepository_GetByID env w2 id).1 ∧
    (AssetRepository_GetByID { env with publishFails := publishFails } w1 id).2.core =
      (AssetRepository_GetByID env w2 id).2.core := by
  obtain ⟨ha, hv, hal, ht, hu⟩ := (core_eq_iff w1 w2).1 h
  have hs := core_step w1 w2 h
  unfold AssetRepository_GetByID
  simp only [ha, ht]
  split
  · exact ⟨rfl, hs⟩
  · split
    · exact ⟨rfl, hs⟩
    · split
      · exact ⟨rfl, hs⟩
      · exact ⟨rfl, hs⟩

theorem core_ListByTenant (env : Env) (publishFails : Nat → Bool) (w1 w2 : World)
    (tenantID : UUID) (h : w1.core = w2.core) :
    (AssetRepository_ListByTenant { env with publishFails := publishFails } w1 tenantID).1 =
      (AssetRepository_ListByTenant env w2 tenantID).1 ∧
    (AssetRepository_ListByTenant { env with publishFails := publishFails } w1 tenantID).2.core =
      (AssetRepository_ListByTenant env w2 tenantID).2.core := by
  obtain ⟨ha, hv, hal, ht, hu⟩ := (core_eq_iff w1 w2).1 h
  have hs := core_step w1 w2 h
  unfold AssetRepository_ListByTenant
  simp only [ha, ht]
  split
  · exact ⟨rfl, hs⟩
  · split
    · exact ⟨rfl, hs⟩
    · exact ⟨rfl, hs⟩

theorem core_VulnGetByID (env : Env) (publishFails : Nat → Bool) (w1 w2 : World) (id : UUID)
    (h : w1.core = w2.core) :
    (VulnerabilityRepository_GetByID { env with publishFails := publishFails } w1 id).1 =
      (VulnerabilityRepository_GetByID env w2 id).1 ∧
    (VulnerabilityRepository_GetByID { env with publishFails := publishFails } w1 id).2.core =
      (VulnerabilityRepository_GetByID env w2 id).2.core := by
  obtain ⟨ha, hv, hal, ht, hu⟩ := (core_eq_iff w1 w2).1 h
  have hs := core_step w1 w2 h
  unfold VulnerabilityRepository_GetByID
  simp only [hv, ht]
  split
  · exact ⟨rfl, hs⟩
  · split
    · exact ⟨rfl, hs⟩
    · exact ⟨rfl, hs⟩

theorem core_VulnList (env : Env) (publishFails : Nat → Bool) (w1 w2 : World)
    (limit offset : Nat) (h : w1.core = w2.core) :
    (VulnerabilityRepository_List { env with publishFails := publishFails } w1 limit offset).1 =
      (VulnerabilityRepository_List env w2 limit offset).1 ∧
    (VulnerabilityRepository_List { env with publishFails := publishFails } w1 limit offset).2.core =
      (VulnerabilityRepository_List env w2 limit offset).2.core := by
  obtain ⟨ha, hv, hal, ht, hu⟩ := (core_eq_iff w1 w2).1 h
  have hs := core_step w1 w2 h
  unfold VulnerabilityRepository_List
  simp only [hv, ht]
  split
  · exact ⟨rfl, hs⟩
  · exact ⟨rfl, hs⟩

theorem core_matchTenantBody (env : Env) (publishFails : Nat → Bool) (vuln : Vulnerability)
    (w1 w2 : World) (tenantID : UUID) (h : w1.core = w2.core) :
    (matchTenantBody { env with publishFails := publishFails } vuln w1 tenantID).core =
      (matchTenantBody env vuln w2 tenantID).core := by
  have hl := core_ListByTenant env publishFails w1 w2 tenantID h
  unfold matchTenantBody
  rcases h1 : AssetRepository_ListByTenant { env with publishFails := publishFails } w1 tenantID
    with ⟨r1, v1⟩
  rcases h2 : AssetRepository_ListByTenant env w2 tenantID with ⟨r2, v2⟩
  rw [h1, h2] at hl
  simp only at hl
  obtain ⟨hr, hc⟩ := hl
  subst hr
  cases r1 with
  | error e => exact hc
  | ok assets => exact core_foldl_matchVulnerabilityBody env publishFails tenantID vuln assets v1 v2 hc

theorem core_foldl_matchTenantBody (env : Env) (publishFails : Nat → Bool)
    (vuln : Vulnerability) (tenants : List UUID) (w1 w2 : World) (h : w1.core = w2.core) :
    (tenants.foldl (matchTenantBody { env with publishFails := publishFails } vuln) w1).core =
      (tenants.foldl (matchTenantBody env vuln) w2).core := by
  induction tenants generalizing w1 w2 with
  | nil => exact h
  | cons t rest ih =>
    simp only [List.foldl_cons]
    exact ih _ _ (core_matchTenantBody env publishFails vuln w1 w2 t h)

theorem core_log_match (w : World) (e : Event) (he : e.asUpsert = none) :
    (w.log e).core = w.core := by
  simp [World.core, World.log, upsertCalls, List.filterMap_append, he]

theorem MatchAsset_core (env : Env) (publishFails : Nat → Bool) (w : World) (assetID : UUID) :
    (MatchAsset { env with publishFails := publishFails } w assetID).1 =
      (MatchAsset env w assetID).1 ∧
    (MatchAsset { env with publishFails := publishFails } w assetID).2.core =
      (MatchAsset env w assetID).2.core := by
  have hg := core_GetByID env publishFails (w.log (Event.matchAsset assetID))
    (w.log (Event.matchAsset assetID)) assetID rfl
  simp only [MatchAsset]
  rcases h1 : AssetRepository_GetByID { env with publishFails := publishFails }
    (w.log (Event.matchAsset assetID)) assetID with ⟨r1, v1⟩
  rcases h2 : AssetRepository_GetByID env (w.log (Event.matchAsset assetID)) assetID
    with ⟨r2, v2⟩
  rw [h1, h2] at hg
  simp only at hg
  obtain ⟨hr, hc⟩ := hg
  subst hr
  cases r1 with
  | error e => exact ⟨rfl, hc⟩
  | ok asset =>
    have hl := core_VulnList env publishFails v1 v2 1000 0 hc
    simp only
    rcases h3 : VulnerabilityRepository_List { env with publishFails := publishFails } v1 1000 0
      with ⟨r3, v3⟩
    rcases h4 : VulnerabilityRepository_List env v2 1000 0 with ⟨r4, v4⟩
    rw [h3, h4] at hl
    simp only at hl
    obtain ⟨hr2, hc2⟩ := hl
    subst hr2
    cases r3 with
    | error e => exact ⟨rfl, hc2⟩
    | ok vulns => exact ⟨rfl, core_foldl_matchAssetBody env publishFails asset vulns v3 v4 hc2⟩

theorem MatchVulnerability_core (env : Env) (publishFails : Nat → Bool) (w : World)
    (vulnID : UUID) :
    (MatchVulnerability { env with publishFails := publishFails } w vulnID).1 =
      (MatchVulnerability env w vulnID).1 ∧
    (MatchVulnerability { env with publishFails := publishFails } w vulnID).2.core =
      (MatchVulnerability env w vulnID).2.core := by
  have hg := core_VulnGetByID env publishFails (w.log (Event.matchVulnerability vulnID))
    (w.log (Event.matchVulnerability vulnID)) vulnID rfl
  simp only [MatchVulnerability]
  rcases h1 : VulnerabilityRepository_GetByID { env with publishFails := publishFails }
    (w.log (Event.matchVulnerability vulnID)) vulnID with ⟨r1, v1⟩
  rcases h2 : VulnerabilityRepository_GetByID env (w.log (Event.matchVulnerability vulnID)) vulnID
    with ⟨r2, v2⟩
  rw [h1, h2] at hg
  simp only at hg
  obtain ⟨hr, hc⟩ := hg
  subst hr
  cases r1 with
  | error e => exact ⟨rfl, hc⟩
  | ok vuln => exact ⟨rfl, core_foldl_matchTenantBody env publishFails vuln getTenantIDs v1 v2 hc⟩

/-- C14: replacing the outcomes of the publish calls by any others changes
neither what `MatchAsset` and `MatchVulnerability` return nor what they do to the
ledger: the returned error, the sequence of `Upsert` calls (arguments and
results) and the final ledger are the same; and the returned error of
`MatchAsset` is `nil` whenever the asset and the catalog load. -/
theorem match_ignores_publish_failures (env : Env) (publishFails : Nat → Bool) (w : World)
    (id : UUID) :
    ((MatchAsset { env with publishFails := publishFails } w id).1 = (MatchAsset env w id).1 ∧
      upsertCalls (MatchAsset { env with publishFails := publishFails } w id).2 =
        upsertCalls (MatchAsset env w id).2 ∧
      (MatchAsset { env with publishFails := publishFails } w id).2.alerts =
        (MatchAsset env w id).2.alerts) ∧
    ((MatchVulnerability { env with publishFails := publishFails } w id).1 =
        (MatchVulnerability env w id).1 ∧
      upsertCalls (MatchVulnerability { env with publishFails := publishFails } w id).2 =
        upsertCalls (MatchVulnerability env w id).2 ∧
      (MatchVulnerability { env with publishFails := publishFails } w id).2.alerts =
        (MatchVulnerability env w id).2.alerts) ∧
    (∀ asset w1 vulns w2,
      AssetRepository_GetByID env (w.log (Event.matchAsset id)) id = (Except.ok asset, w1) →
      VulnerabilityRepository_List env w1 1000 0 = (Except.ok vulns, w2) →
      (MatchAsset env w id).1 = none) := by
  have ha := MatchAsset_core env publishFails w id
  have hv := MatchVulnerability_core env publishFails w id
  have ha2 := (core_eq_iff _ _).1 ha.2
  have hv2 := (core_eq_iff _ _).1 hv.2
  refine ⟨⟨ha.1, ha2.2.2.2.2, ha2.2.2.1⟩, ⟨hv.1, hv2.2.2.2.2, hv2.2.2.1⟩, ?_⟩
  intro asset w1 vulns w2 h1 h2
  simp only [MatchAsset, h1, h2]

/-! ### Routing -/

/-- C15: a parseable envelope of type `webhook.dispatch` is acknowledged and
nothing else happens, whatever its payload and tenant: the run adds the one
action `Ack(false)` to the trace (no entry into `MatchVulnerability` or
`MatchAsset`, no `Upsert`, no publish) and leaves the tables, the broker and the
counter as they were. -/
theorem processMessage_webhook_dispatch (env : Env) (w : World) (delivery : Delivery)
    (msg : Message) (hparse : env.jsonUnmarshal delivery.Body = some msg)
    (htype : msg.Type_ = "webhook.dispatch") :
    processMessage env w delivery =
      { w with trace := w.trace ++ [Event.ack delivery.DeliveryTag false] } := by
  have h1 : ¬ msg.Type_ = "vuln.ingested" := by rw [htype]; decide
  have h2 : ¬ msg.Type_ = "asset.changed" := by rw [htype]; decide
  simp [processMessage, hparse, h1, h2, htype, World.log]

theorem processMessage_webhook_dispatch_witness :
    processMessage sampleEnvMore (sampleWorld [sampleRow "open"])
        (Delivery.mk 8 "\x7b\"type\":\"webhook.dispatch\",\"tenant_id\":\"t\",\"payload\":\x7b\"event_type\":\"alert.created\"\x7d\x7d") =
      { sampleWorld [sampleRow "open"] with trace := [Event.ack 8 false] } :=
  processMessage_webhook_dispatch sampleEnvMore (sampleWorld [sampleRow "open"])
    (Delivery.mk 8 "\x7b\"type\":\"webhook.dispatch\",\"tenant_id\":\"t\",\"payload\":\x7b\"event_type\":\"alert.created\"\x7d\x7d")
    { Type_ := "webhook.dispatch", TenantID := "t",
      Payload := [("event_type", JSONValue.string "alert.created")], Timestamp := 0 }
    rfl rfl

theorem matchCalls_log (w : World) (e : Event) :
    matchCalls (w.log e) = matchCalls w ++ (if e.isMatchCall = true then [e] else []) := by
  by_cases h : e.isMatchCall = true
  · simp [matchCalls, World.log, List.filter_append, List.filter_cons, h]
  · simp [matchCalls, World.log, List.filter_append, List.filter_cons, h]

theorem matchCalls_step (w : World) : matchCalls w.step = matchCalls w := rfl

theorem matchCalls_publishWebhookEvent (env : Env) (w : World) (tenantID : UUID)
    (eventType : String) (payload : List (String × JSONValue)) :
    matchCalls (publishWebhookEvent env w tenantID eventType payload) = matchCalls w := by
  unfold publishWebhookEvent Client_Publish
  by_cases h : env.publishFails w.tick = true
  · simp [h, matchCalls, World.log, World.step, List.filter_append, List.filter_cons,
      Event.isMatchCall]
  · simp [h, matchCalls, World.log, World.step, List.filter_append, List.filter_cons,
      Event.isMatchCall]

theorem matchCalls_upsertAndPublish (env : Env) (w : World) (tenantID : UUID)
    (asset : Asset) (vuln : Vulnerability) :
    matchCalls (upsertAndPublish env w tenantID asset vuln) = matchCalls w := by
  cases herr : (pairUpsert env w asset vuln).err with
  | none =>
    simp only [upsertAndPublish, herr, matchCalls_publishWebhookEvent]
    simp [matchCalls, World.log, World.step, List.filter_append, List.filter_cons,
      Event.isMatchCall]
  | some e =>
    simp only [upsertAndPublish, herr]
    simp [matchCalls, World.log, World.step, List.filter_append, List.filter_cons,
      Event.isMatchCall]

theorem matchCalls_foldl_matchAssetBody (env : Env) (asset : Asset)
    (vulns : List Vulnerability) (w : World) :
    matchCalls (vulns.foldl (matchAssetBody env asset) w) = matchCalls w := by
  induction vulns generalizing w with
  | nil => rfl
  | cons v rest ih =>
    rw [List.foldl_cons, ih]
    unfold matchAssetBody
    split
    · exact matchCalls_upsertAndPublish env w asset.TenantID asset v
    · rfl

theorem matchCalls_foldl_matchVulnerabilityBody (env : Env) (tenantID : UUID)
    (vuln : Vulnerability) (assets : List Asset) (w : World) :
    matchCalls (assets.foldl (matchVulnerabilityBody env tenantID vuln) w) = matchCalls w := by
  induction assets generalizing w with
  | nil => rfl
  | cons a rest ih =>
    rw [List.foldl_cons, ih]
    unfold matchVulnerabilityBody
    split
    · exact matchCalls_upsertAndPublish env w tenantID a vuln
    · rfl

theorem matchCalls_ListByTenant (env : Env) (w : World) (tenantID : UUID) :
    matchCalls (AssetRepository_ListByTenant env w tenantID).2 = matchCalls w := by
  simp only [AssetRepository_ListByTenant]
  split
  · rfl
  · split <;> rfl

theorem matchCalls_foldl_matchTenantBody (env : Env) (vuln : Vulnerability)
    (tenants : List UUID) (w : World) :
    matchCalls (tenants.foldl (matchTenantBody env vuln) w) = matchCalls w := by
  induction tenants generalizing w with
  | nil => rfl
  | cons t rest ih =>
    rw [List.foldl_cons, ih]
    have hl := matchCalls_ListByTenant env w t
    unfold matchTenantBody
    generalize AssetRepository_ListByTenant env w t = g at hl ⊢
    obtain ⟨r1, v1⟩ := g
    cases r1 with
    | error e => exact hl
    | ok assets =>
      simp only
      rw [matchCalls_foldl_matchVulnerabilityBody]
      exact hl

/-- The whole run of `MatchVulnerability` contains one entry into a fan-out
function: its own. -/
theorem matchCalls_MatchVulnerability (env : Env) (w : World) (vulnID : UUID) :
    matchCalls (MatchVulnerability env w vulnID).2 =
      matchCalls w ++ [Event.matchVulnerability vulnID] := by
  have hlog : matchCalls (w.log (Event.matchVulnerability vulnID)) =
      matchCalls w ++ [Event.matchVulnerability vulnID] := by
    rw [matchCalls_log]; rfl
  simp only [MatchVulnerability, VulnerabilityRepository_GetByID]
  split
  · rename_i h
    split at h
    · cases h
      exact hlog
    · split at h
      · cases h
        exact hlog
      · cases h
  · rename_i h
    split at h
    · cases h
    · split at h
      · cases h
      · cases h
        rw [matchCalls_foldl_matchTenantBody]
        exact hlog

/-- The whole run of `MatchAsset` contains one entry into a fan-out function: its
own. -/
theorem matchCalls_MatchAsset (env : Env) (w : World) (assetID : UUID) :
    matchCalls (MatchAsset env w assetID).2 = matchCalls w ++ [Event.matchAsset assetID] := by
  have hlog : matchCalls (w.log (Event.matchAsset assetID)) =
      matchCalls w ++ [Event.matchAsset assetID] := by
    rw [matchCalls_log]; rfl
  have hget : matchCalls (AssetRepository_GetByID env (w.log (Event.matchAsset assetID))
      assetID).2 = matchCalls w ++ [Event.matchAsset assetID] := by
    rw [← hlog]
    unfold AssetRepository_GetByID
    split
    · rfl
    · split
      · rfl
      · split <;> rfl
  simp only [MatchAsset]
  generalize AssetRepository_GetByID env (w.log (Event.matchAsset assetID)) assetID = g
    at hget ⊢
  obtain ⟨r1, v1⟩ := g
  simp only at hget
  cases r1 with
  | error e => exact hget
  | ok asset =>
    simp only [VulnerabilityRepository_List]
    split
    · rename_i h
      split at h
      · cases h
        exact hget
      · cases h
    · rename_i h
      split at h
      · cases h
      · cases h
        rw [matchCalls_foldl_matchAssetBody]
        exact hget

theorem matchCalls_settle (delivery : Delivery) (r : GoError × World) :
    matchCalls (settle delivery r) = matchCalls r.2 := by
  unfold settle
  split <;> simp [matchCalls_log, Event.isMatchCall]

/-- C16: for a parseable envelope of type `vuln.ingested` whose
`vulnerability_id` is a string that parses to the UUID `id`, the run is the run
of `MatchVulnerability` on `id` followed by the ack or nack, and the entries into
fan-out functions it adds are exactly one, `MatchVulnerability id`; for type
`asset.changed` with `asset_id` parsing to `id` the same holds with `MatchAsset`. -/
theorem processMessage_routes (env : Env) (w : World) (delivery : Delivery) (msg : Message)
    (u : String) (id : UUID) (hparse : env.jsonUnmarshal delivery.Body = some msg)
    (huuid : env.uuidParse u = some id) :
    (msg.Type_ = "vuln.ingested" →
      msg.Payload.lookup "vulnerability_id" = some (JSONValue.string u) →
      processMessage env w delivery = settle delivery (MatchVulnerability env w id) ∧
      matchCalls (processMessage env w delivery) =
        matchCalls w ++ [Event.matchVulnerability id]) ∧
    (msg.Type_ = "asset.changed" →
      msg.Payload.lookup "asset_id" = some (JSONValue.string u) →
      processMessage env w delivery = settle delivery (MatchAsset env w id) ∧
      matchCalls (processMessage env w delivery) = matchCalls w ++ [Event.matchAsset id]) := by
  constructor
  · intro htype hlookup
    have hrun : processMessage env w delivery = settle delivery (MatchVulnerability env w id) := by
      simp [processMessage, hparse, htype, handleVulnIngested, hlookup, huuid]
    refine ⟨hrun, ?_⟩
    rw [hrun, matchCalls_settle, matchCalls_MatchVulnerability]
  · intro htype hlookup
    have hne : ¬ msg.Type_ = "vuln.ingested" := by rw [htype]; decide
    have hrun : processMessage env w delivery = settle delivery (MatchAsset env w id) := by
      simp [processMessage, hparse, htype, handleAssetChanged, hlookup, huuid]
    refine ⟨hrun, ?_⟩
    rw [hrun, matchCalls_settle, matchCalls_MatchAsset]

theorem processMessage_routes_witness :
    matchCalls (processMessage sampleEnvMore (sampleWorld [])
        (Delivery.mk 9 "\x7b\"type\":\"vuln.ingested\",\"payload\":\x7b\"vulnerability_id\":\"00000000-0000-0000-0000-000000000002\"\x7d\x7d")) =
      [Event.matchVulnerability 2] :=
  ((processMessage_routes sampleEnvMore (sampleWorld [])
    (Delivery.mk 9 "\x7b\"type\":\"vuln.ingested\",\"payload\":\x7b\"vulnerability_id\":\"00000000-0000-0000-0000-000000000002\"\x7d\x7d")
    { Type_ := "vuln.ingested", TenantID := "",
      Payload := [("vulnerability_id", JSONValue.string "00000000-0000-0000-0000-000000000002")],
      Timestamp := 0 }
    "00000000-0000-0000-0000-000000000002" 2 rfl rfl).1 rfl rfl).2

/-! ### Affectedness predicate: case, wildcard, version mismatch -/

theorem toNat_ofNat_of_lt (n : Nat) (h : n < 55296) : (Char.ofNat n).toNat = n := by
  have hv : n.isValidChar := Or.inl h
  simp [Char.ofNat, hv, Char.toNat, Char.ofNatAux, UInt32.toNat]

theorem char_le_iff (a b : Char) : a ≤ b ↔ a.toNat ≤ b.toNat := Iff.rfl

/-- Lower-casing does not see a change of case. -/
theorem toLowerChar_flipCaseChar (c : Char) : toLowerChar (flipCaseChar c) = toLowerChar c := by
  unfold flipCaseChar
  by_cases h1 : 'a' ≤ c ∧ c ≤ 'z'
  · simp only [h1, and_self, if_true]
    have ha : 97 ≤ c.toNat := (char_le_iff _ _).1 h1.1
    have hz : c.toNat ≤ 122 := (char_le_iff _ _).1 h1.2
    have hn : (Char.ofNat (c.toNat - 32)).toNat = c.toNat - 32 :=
      toNat_ofNat_of_lt _ (by omega)
    have hup : 'A' ≤ Char.ofNat (c.toNat - 32) ∧ Char.ofNat (c.toNat - 32) ≤ 'Z' := by
      rw [char_le_iff, char_le_iff, hn]
      exact ⟨by show 65 ≤ _; omega, by show _ ≤ 90; omega⟩
    have hc : ¬ ('A' ≤ c ∧ c ≤ 'Z') := by
      rintro ⟨_, h⟩
      have : c.toNat ≤ 90 := (char_le_iff _ _).1 h
      omega
    have hs1 : (Char.ofNat (c.toNat - 32)).toNat ≤ 127 := by rw [hn]; omega
    have hs2 : c.toNat ≤ 127 := by omega
    unfold toLowerChar
    rw [if_pos hs1, if_pos hup, if_pos hs2, if_neg hc, hn]
    have : c.toNat - 32 + 32 = c.toNat := by omega
    rw [this]
    exact Char.ofNat_toNat c
  · simp only [h1, if_false]
    by_cases h2 : 'A' ≤ c ∧ c ≤ 'Z'
    · simp only [h2, and_self, if_true]
      have ha : 65 ≤ c.toNat := (char_le_iff _ _).1 h2.1
      have hz : c.toNat ≤ 90 := (char_le_iff _ _).1 h2.2
      have hn : (Char.ofNat (c.toNat + 32)).toNat = c.toNat + 32 :=
        toNat_ofNat_of_lt _ (by omega)
      have hlow : ¬ ('A' ≤ Char.ofNat (c.toNat + 32) ∧ Char.ofNat (c.toNat + 32) ≤ 'Z') := by
        rintro ⟨_, h⟩
        rw [char_le_iff, hn] at h
        have : c.toNat + 32 ≤ 90 := h
        omega
      have hs1 : (Char.ofNat (c.toNat + 32)).toNat ≤ 127 := by rw [hn]; omega
      have hs2 : c.toNat ≤ 127 := by omega
      unfold toLowerChar
      rw [if_pos hs1, if_neg hlow, if_pos hs2, if_pos h2]
    · simp only [h2, if_false]

theorem map_toLowerChar_changeCaseChars (mask : List Bool) (cs : List Char) :
    (changeCaseChars mask cs).map toLowerChar = cs.map toLowerChar := by
  induction cs generalizing mask with
  | nil => cases mask <;> rfl
  | cons c rest ih =>
    cases mask with
    | nil => rfl
    | cons b bs =>
      simp only [changeCaseChars, List.map_cons, ih]
      cases b
      · rfl
      · simp [toLowerChar_flipCaseChar]

theorem strings_ToLower_changeCase (mask : List Bool) (s : String) :
    strings_ToLower (changeCase mask s) = strings_ToLower s := by
  simp [strings_ToLower, changeCase, map_toLowerChar_changeCaseChars]

theorem affectedLoop_changeCase (asset : Asset) (assetMask : List Bool)
    (masks : List (List Bool)) (ps : List AffectedProduct) :
    affectedLoop { asset with Name := changeCase assetMask asset.Name }
        (changeProductCase masks ps) = affectedLoop asset ps := by
  induction ps generalizing masks with
  | nil => cases masks <;> rfl
  | cons p rest ih =>
    cases masks with
    | nil =>
      have ih0 := ih []
      have hnil : changeProductCase [] rest = rest := by cases rest <;> rfl
      rw [hnil] at ih0
      simp only [changeProductCase, affectedLoop, strings_ToLower_changeCase, ih0]
    | cons m ms =>
      simp only [changeProductCase, affectedLoop, strings_ToLower_changeCase, ih ms]

/-- C17: changing the letter case of the asset name, and of the name of any of
the affected products, at any positions, does not change the result of
`isAssetAffected`; and `Nginx-Proxy` passes the name test against `nginx` and
against `NGINX`, so with a listed version the asset is affected. -/
theorem isAssetAffected_case_insensitive (asset : Asset) (vuln : Vulnerability)
    (assetMask : List Bool) (productMasks : List (List Bool)) :
    isAssetAffected { asset with Name := changeCase assetMask asset.Name }
        { vuln with AffectedProducts := changeProductCase productMasks vuln.AffectedProducts } =
      isAssetAffected asset vuln ∧
    strings_Contains (strings_ToLower "Nginx-Proxy") (strings_ToLower "nginx") = true ∧
    strings_Contains (strings_ToLower "Nginx-Proxy") (strings_ToLower "NGINX") = true ∧
    isAssetAffected sampleAsset
      { sampleVuln with AffectedProducts := [{ Name := "nginx", Versions := ["1.18.0"] }] } = true ∧
    isAssetAffected sampleAsset
      { sampleVuln with AffectedProducts := [{ Name := "NGINX", Versions := ["1.18.0"] }] } = true := by
  refine ⟨?_, by decide, by decide, by decide, by decide⟩
  unfold isAssetAffected
  exact affectedLoop_changeCase asset assetMask productMasks vuln.AffectedProducts

/-- The outer loop returns true exactly when some entry passes the name test and
the version test. -/
theorem affectedLoop_iff (asset : Asset) (ps : List AffectedProduct) :
    affectedLoop asset ps = true ↔
      ∃ p ∈ ps,
        strings_Contains (strings_ToLower asset.Name) (strings_ToLower p.Name) = true ∧
        ((asset.Version = none ∧ p.Versions = []) ∨
          (∃ v, asset.Version = some v ∧ v ∈ p.Versions) ∨
          "*" ∈ p.Versions) := by
  induction ps with
  | nil => simp [affectedLoop]
  | cons p rest ih =>
    rw [affectedLoop_cons, ih]
    simp only [List.mem_cons, exists_eq_or_imp]
    have hc : strings_Contains (strings_ToLower asset.Name) (strings_ToLower p.Name) = true ↔
        (strings_ToLower p.Name).data <:+: (strings_ToLower asset.Name).data :=
      containsChars_iff _ _
    rw [hc]

/-- C18: when the asset name contains, case-insensitively, the name of an
affected-product entry whose version list contains `"*"`, `isAssetAffected`
returns true, whether the asset has a version or none. -/
theorem isAssetAffected_wildcard (asset : Asset) (vuln : Vulnerability) (p : AffectedProduct)
    (hp : p ∈ vuln.AffectedProducts)
    (hname : strings_Contains (strings_ToLower asset.Name) (strings_ToLower p.Name) = true)
    (hstar : "*" ∈ p.Versions) :
    isAssetAffected asset vuln = true := by
  unfold isAssetAffected
  rw [affectedLoop_iff]
  exact ⟨p, hp, hname, Or.inr (Or.inr hstar)⟩

theorem isAssetAffected_wildcard_witness :
    isAssetAffected { sampleAsset with Version := some "9.9.9" } sampleVuln = true ∧
    isAssetAffected { sampleAsset with Version := none } sampleVuln = true :=
  ⟨isAssetAffected_wildcard { sampleAsset with Version := some "9.9.9" } sampleVuln
      { Name := "nginx", Versions := ["*"] } (by decide) (by decide) (by decide),
   isAssetAffected_wildcard { sampleAsset with Version := none } sampleVuln
      { Name := "nginx", Versions := ["*"] } (by decide) (by decide) (by decide)⟩

/-- C19: when the asset has the version `v` and every affected-product entry that
passes the name test lists neither `"*"` nor a string equal to `v`, then
`isAssetAffected` returns false (a name-matching entry with an empty list
included); the comparison is equality of strings, so `1.19.0` does not match
`1.18.0`. -/
theorem isAssetAffected_version_mismatch (asset : Asset) (vuln : Vulnerability) (v : String)
    (hv : asset.Version = some v)
    (hlists : ∀ p ∈ vuln.AffectedProducts,
      strings_Contains (strings_ToLower asset.Name) (strings_ToLower p.Name) = true →
      "*" ∉ p.Versions ∧ v ∉ p.Versions) :
    isAssetAffected asset vuln = false := by
  cases h : isAssetAffected asset vuln with
  | false => rfl
  | true =>
    unfold isAssetAffected at h
    rw [affectedLoop_iff] at h
    obtain ⟨p, hp, hname, hcond⟩ := h
    have hno := hlists p hp hname
    rcases hcond with ⟨hnone, _⟩ | ⟨v2, hv2, hmem⟩ | hstar
    · rw [hv] at hnone
      cases hnone
    · rw [hv] at hv2
      cases hv2
      exact absurd hmem hno.2
    · exact absurd hstar hno.1

theorem isAssetAffected_version_mismatch_witness :
    isAssetAffected { sampleAsset with Version := some "1.19.0" }
      { sampleVuln with AffectedProducts := [{ Name := "nginx", Versions := ["1.18.0"] }] }
      = false :=
  isAssetAffected_version_mismatch { sampleAsset with Version := some "1.19.0" }
    { sampleVuln with AffectedProducts := [{ Name := "nginx", Versions := ["1.18.0"] }] }
    "1.19.0" rfl (by decide)

/-! ### Published envelopes -/

theorem Upsert_alert_ID (rows : List Alert) (now : Time) (queryFails : Bool) (alert : Alert) :
    (Upsert rows now queryFails alert).alert.ID = alert.ID := by
  unfold Upsert
  split
  · rfl
  · split
    · split <;> rfl
    · rfl

/-- What the block run for an affected pair adds to the broker: nothing, or the
one envelope of the pair, carrying the id of the alert passed to `Upsert`. -/
theorem published_upsertAndPublish (env : Env) (w : World) (tenantID : UUID) (asset : Asset)
    (vuln : Vulnerability) (htenant : tenantID = asset.TenantID) :
    ∃ added, (upsertAndPublish env w tenantID asset vuln).published = w.published ++ added ∧
      ∀ e ∈ added, IsAlertEnvelope env asset vuln (newAlert env w asset vuln).ID e := by
  subst htenant
  have hid : (pairUpsert env w asset vuln).alert.ID = (newAlert env w asset vuln).ID :=
    Upsert_alert_ID _ _ _ _
  cases herr : (pairUpsert env w asset vuln).err with
  | some e =>
    refine ⟨[], ?_, by simp⟩
    simp only [upsertAndPublish, herr]
    simp [World.log, World.step]
  | none =>
    simp only [upsertAndPublish, herr, publishWebhookEvent, Client_Publish]
    split
    · refine ⟨[], ?_, by simp⟩
      simp [World.log, World.step]
    · refine ⟨[("vulnpulse-jobs",
          { Type_ := "webhook.dispatch", TenantID := env.uuidString asset.TenantID,
            Payload := [("event_type", JSONValue.string EventAlertCreated),
              ("event_data", JSONValue.object
                (alertEventData env (pairUpsert env w asset vuln).alert asset vuln))],
            Timestamp := 0 })], ?_, ?_⟩
      · simp [World.log, World.step]
      · intro e he
        rw [List.mem_singleton] at he
        subst he
        refine ⟨rfl, rfl, rfl, ?_⟩
        simp only [alertEventData, hid, EventAlertCreated]

theorem upsertCalls_foldl_matchAssetBody (env : Env) (asset : Asset)
    (vulns : List Vulnerability) (w : World) :
    ∃ more, upsertCalls (vulns.foldl (matchAssetBody env asset) w) = upsertCalls w ++ more := by
  induction vulns generalizing w with
  | nil => exact ⟨[], by simp⟩
  | cons v rest ih =>
    obtain ⟨more, hmore⟩ := ih (matchAssetBody env asset w v)
    rw [List.foldl_cons, hmore]
    unfold matchAssetBody
    split
    · rw [upsertCalls_upsertAndPublish, List.append_assoc]
      exact ⟨_, rfl⟩
    · exact ⟨_, rfl⟩

/-- What the loop of `MatchAsset` adds to the broker: envelopes of affected pairs
of the list, each carrying the id of an alert passed to `Upsert` for that pair. -/
theorem published_foldl_matchAssetBody (env : Env) (asset : Asset)
    (vulns : List Vulnerability) (w : World) :
    ∃ added, (vulns.foldl (matchAssetBody env asset) w).published = w.published ++ added ∧
      ∀ e ∈ added, ∃ vuln ∈ vulns, isAssetAffected asset vuln = true ∧
        ∃ call ∈ upsertCalls (vulns.foldl (matchAssetBody env asset) w),
          upsertSubject call = (asset.TenantID, asset.ID, vuln.ID, vuln.Severity, "open") ∧
          IsAlertEnvelope env asset vuln call.1.ID e := by
  induction vulns generalizing w with
  | nil => exact ⟨[], by simp, by simp⟩
  | cons v rest ih =>
    obtain ⟨added2, hpub2, hall2⟩ := ih (matchAssetBody env asset w v)
    obtain ⟨more, hmore⟩ := upsertCalls_foldl_matchAssetBody env asset rest
      (matchAssetBody env asset w v)
    simp only [List.foldl_cons]
    by_cases ha : isAssetAffected asset v = true
    · have hbody : matchAssetBody env asset w v = upsertAndPublish env w asset.TenantID asset v := by
        simp [matchAssetBody, ha]
      obtain ⟨added1, hpub1, hall1⟩ :=
        published_upsertAndPublish env w asset.TenantID asset v rfl
      refine ⟨added1 ++ added2, ?_, ?_⟩
      · rw [hpub2, hbody, hpub1, List.append_assoc]
      · intro e he
        rcases List.mem_append.1 he with h1 | h2
        · refine ⟨v, List.mem_cons_self _ _, ha,
            (newAlert env w asset v, (pairUpsert env w asset v).err), ?_, rfl, hall1 e h1⟩
          rw [hmore, hbody, upsertCalls_upsertAndPublish]
          simp
        · obtain ⟨vuln, hv, haff, call, hcall, hsub, henv⟩ := hall2 e h2
          exact ⟨vuln, List.mem_cons_of_mem _ hv, haff, call, hcall, hsub, henv⟩
    · have hbody : matchAssetBody env asset w v = w := by
        simp [matchAssetBody, ha]
      refine ⟨added2, ?_, ?_⟩
      · rw [hpub2, hbody]
      · intro e he
        obtain ⟨vuln, hv, haff, call, hcall, hsub, henv⟩ := hall2 e he
        exact ⟨vuln, List.mem_cons_of_mem _ hv, haff, call, hcall, hsub, henv⟩

theorem published_foldl_matchVulnerabilityBody (env : Env) (tenantID : UUID)
    (vuln : Vulnerability) (assets : List Asset) (w : World)
    (hown : ∀ a ∈ assets, a.TenantID = tenantID) :
    ∃ added, (assets.foldl (matchVulnerabilityBody env tenantID vuln) w).published =
        w.published ++ added ∧
      ∀ e ∈ added, ∃ asset ∈ assets, isAssetAffected asset vuln = true ∧
        ∃ alertID, IsAlertEnvelope env asset vuln alertID e := by
  induction assets generalizing w with
  | nil => exact ⟨[], by simp, by simp⟩
  | cons a rest ih =>
    obtain ⟨added2, hpub2, hall2⟩ := ih (matchVulnerabilityBody env tenantID vuln w a)
      (fun x hx => hown x (List.mem_cons_of_mem _ hx))
    simp only [List.foldl_cons]
    by_cases ha : isAssetAffected a vuln = true
    · have hbody : matchVulnerabilityBody env tenantID vuln w a =
          upsertAndPublish env w tenantID a vuln := by
        simp [matchVulnerabilityBody, ha]
      obtain ⟨added1, hpub1, hall1⟩ :=
        published_upsertAndPublish env w tenantID a vuln (hown a (List.mem_cons_self _ _)).symm
      refine ⟨added1 ++ added2, ?_, ?_⟩
      · rw [hpub2, hbody, hpub1, List.append_assoc]
      · intro e he
        rcases List.mem_append.1 he with h1 | h2
        · exact ⟨a, List.mem_cons_self _ _, ha, _, hall1 e h1⟩
        · obtain ⟨asset, hm, haff, henv⟩ := hall2 e h2
          exact ⟨asset, List.mem_cons_of_mem _ hm, haff, henv⟩
    · have hbody : matchVulnerabilityBody env tenantID vuln w a = w := by
        simp [matchVulnerabilityBody, ha]
      refine ⟨added2, ?_, ?_⟩
      · rw [hpub2, hbody]
      · intro e he
        obtain ⟨asset, hm, haff, henv⟩ := hall2 e he
        exact ⟨asset, List.mem_cons_of_mem _ hm, haff, henv⟩

theorem GetByID_ok (env : Env) (w w1 : World) (id : UUID) (asset : Asset)
    (h : AssetRepository_GetByID env w id = (Except.ok asset, w1)) :
    (∃ row ∈ w.assets, row.asset = asset ∧ asset.ID = id) ∧ w1 = w.step := by
  unfold AssetRepository_GetByID at h
  split at h
  · cases h
  · split at h
    · cases h
    · rename_i row hfind
      split at h
      · cases h
        have hmem := List.mem_of_find?_eq_some hfind
        have hp := List.find?_some hfind
        exact ⟨⟨row, hmem, rfl, of_decide_eq_true hp⟩, rfl⟩
      · cases h

theorem VulnList_ok (env : Env) (w w2 : World) (limit offset : Nat)
    (vulns : List Vulnerability)
    (h : VulnerabilityRepository_List env w limit offset = (Except.ok vulns, w2)) :
    (∀ v ∈ vulns, v ∈ w.vulnerabilities) ∧ w2 = w.step := by
  unfold VulnerabilityRepository_List at h
  split at h
  · cases h
  · cases h
    exact ⟨fun v hv => hv, rfl⟩

theorem ListByTenant_ok (env : Env) (w : World) (tenantID : UUID) :
    (AssetRepository_ListByTenant env w tenantID).2 = w.step ∧
    ∀ assets, (AssetRepository_ListByTenant env w tenantID).1 = Except.ok assets →
      ∀ a ∈ assets, a.TenantID = tenantID ∧ ∃ row ∈ w.assets, row.asset = a := by
  simp only [AssetRepository_ListByTenant]
  split
  · exact ⟨rfl, fun assets h => by cases h⟩
  · split
    · refine ⟨rfl, ?_⟩
      intro assets h a ha
      cases h
      rw [List.mem_map] at ha
      obtain ⟨row, hrow, rfl⟩ := ha
      rw [List.mem_filter] at hrow
      exact ⟨of_decide_eq_true hrow.2, row, hrow.1, rfl⟩
    · exact ⟨rfl, fun assets h => by cases h⟩

/-- C20: what `MatchAsset` adds to the broker are envelopes on `vulnpulse-jobs` of
type `webhook.dispatch`, each for the asset row with the given id and a catalog
vulnerability that affects it, addressed to the tenant of that asset, with the
payload keys `event_type` (`alert.created`) and `event_data`, the latter
holding asset id, vulnerability id, CVE id and severity of the pair and, as
`alert_id`, the id of the alert that was passed to `Upsert` for the pair. The
same holds for what one tenant iteration of `MatchVulnerability` adds, whose
assets all belong to the tenant it publishes to; and the whole of
`MatchVulnerability` adds nothing. -/
theorem published_envelopes_well_formed (env : Env) (w : World) (id : UUID) :
    (∃ added, (MatchAsset env w id).2.published = w.published ++ added ∧
      ∀ e ∈ added, ∃ row ∈ w.assets, row.asset.ID = id ∧
        ∃ vuln ∈ w.vulnerabilities, isAssetAffected row.asset vuln = true ∧
        ∃ call ∈ upsertCalls (MatchAsset env w id).2,
          upsertSubject call =
            (row.asset.TenantID, row.asset.ID, vuln.ID, vuln.Severity, "open") ∧
          IsAlertEnvelope env row.asset vuln call.1.ID e) ∧
    (∀ vuln tenantID, ∃ added,
      (matchTenantBody env vuln w tenantID).published = w.published ++ added ∧
      ∀ e ∈ added, ∃ row ∈ w.assets, row.asset.TenantID = tenantID ∧
        isAssetAffected row.asset vuln = true ∧
        ∃ alertID, IsAlertEnvelope env row.asset vuln alertID e) ∧
    (MatchVulnerability env w id).2.published = w.published := by
  refine ⟨?_, ?_, (MatchVulnerability_does_nothing env w id).2.2⟩
  · simp only [MatchAsset]
    rcases h1 : AssetRepository_GetByID env (w.log (Event.matchAsset id)) id with ⟨r1, v1⟩
    cases r1 with
    | error e =>
      refine ⟨[], ?_, by simp⟩
      have : v1 = (w.log (Event.matchAsset id)).step := by
        have h2 := congrArg Prod.snd h1
        simp only at h2
        rw [← h2]
        unfold AssetRepository_GetByID
        split
        · rfl
        · split
          · rfl
          · split <;> rfl
      simp [this, World.log, World.step]
    | ok asset =>
      obtain ⟨⟨row, hrow, hrasset, hid⟩, hv1⟩ := GetByID_ok env _ v1 id asset h1
      simp only
      rcases h3 : VulnerabilityRepository_List env v1 1000 0 with ⟨r3, v3⟩
      cases r3 with
      | error e =>
        refine ⟨[], ?_, by simp⟩
        have : v3 = v1.step := by
          have h4 := congrArg Prod.snd h3
          simp only at h4
          rw [← h4]
          unfold VulnerabilityRepository_List
          split <;> rfl
        simp [this, hv1, World.log, World.step]
      | ok vulns =>
        obtain ⟨hsub, hv3⟩ := VulnList_ok env v1 v3 1000 0 vulns h3
        obtain ⟨added, hpub, hall⟩ := published_foldl_matchAssetBody env asset vulns v3
        refine ⟨added, ?_, ?_⟩
        · simp only
          rw [hpub, hv3, hv1]
          rfl
        · intro e he
          obtain ⟨vuln, hvm, haff, call, hcall, hsubj, henv⟩ := hall e he
          have hvw : vuln ∈ w.vulnerabilities := by
            have := hsub vuln hvm
            rw [hv1] at this
            exact this
          refine ⟨row, hrow, by rw [hrasset]; exact hid, vuln, hvw, by rw [hrasset]; exact haff,
            call, hcall, by rw [hrasset]; exact hsubj, by rw [hrasset]; exact henv⟩
  · intro vuln tenantID
    have hl := ListByTenant_ok env w tenantID
    unfold matchTenantBody
    generalize AssetRepository_ListByTenant env w tenantID = g at hl ⊢
    obtain ⟨r1, v1⟩ := g
    simp only at hl
    obtain ⟨hstep, hassets⟩ := hl
    cases r1 with
    | error e =>
      refine ⟨[], ?_, by simp⟩
      simp [hstep, World.step]
    | ok assets =>
      have hown := hassets assets rfl
      obtain ⟨added, hpub, hall⟩ := published_foldl_matchVulnerabilityBody env tenantID vuln
        assets v1 (fun a ha => (hown a ha).1)
      refine ⟨added, ?_, ?_⟩
      · simp only
        rw [hpub, hstep]
        rfl
      · intro e he
        obtain ⟨asset, hm, haff, henv⟩ := hall e he
        obtain ⟨htid, row, hrow, hra⟩ := hown asset hm
        exact ⟨row, hrow, by rw [hra]; exact htid, by rw [hra]; exact haff,
          by rw [hra]; exact henv⟩

/-- The envelope that `MatchAsset` publishes for the sample pair on an empty
ledger. -/
theorem published_sample :
    (MatchAsset sampleEnv (sampleWorld []) 1).2.published =
      [("vulnpulse-jobs",
        { Type_ := "webhook.dispatch", TenantID := sampleEnv.uuidString 7,
          Payload :=
            [("event_type", JSONValue.string "alert.created"),
             ("event_data", JSONValue.object
                [("alert_id", JSONValue.string (sampleEnv.uuidString 1002)),
                 ("asset_id", JSONValue.string "00000000-0000-0000-0000-000000000001"),
                 ("vulnerability_id", JSONValue.string (sampleEnv.uuidString 2)),
                 ("cve_id", JSONValue.string "CVE-2024-0001"),
                 ("severity", JSONValue.string "high")])],
          Timestamp := 0 })] := rfl

/-! ### Role permissions -/

theorem permissionLoop_iff (permission : Permission) (permissions : List Permission) :
    permissionLoop permission permissions = true ↔ permission ∈ permissions := by
  induction permissions with
  | nil => simp [permissionLoop]
  | cons p rest ih =>
    simp only [permissionLoop, List.mem_cons]
    by_cases h : p = permission
    · simp [h]
    · have h2 : ¬ permission = p := fun e => h e.symm
      simp [h, h2, ih]

theorem rolePermissions_isSome_iff (role : String) :
    (rolePermissions role).isSome = true ↔
      role = "admin" ∨ role = "analyst" ∨ role = "viewer" := by
  unfold rolePermissions
  by_cases h1 : role = "admin"
  · simp [h1]
  · by_cases h2 : role = "analyst"
    · simp [h2]
    · by_cases h3 : role = "viewer"
      · simp [h3]
      · simp [h1, h2, h3]

theorem denied_ne_unknown (a b c : String) :
    "permission denied: " ++ a ++ " requires " ++ b ≠ "unknown role: " ++ c := by
  intro h
  have hd := congrArg String.data h
  simp only [String.data_append] at hd
  have hh := congrArg List.head? hd
  simp at hh

/-- C25: `HasPermission role p` returns the error `unknown role: <role>` exactly
when the role is none of `admin`, `analyst`, `viewer`; for a role with an entry
in `rolePermissions` it returns nil exactly when `p` is in the entry, and the
error `permission denied: <role> requires <p>` otherwise. -/
theorem HasPermission_spec (role : String) (p : Permission) :
    (HasPermission role p = some ("unknown role: " ++ role) ↔
      ¬ (role = "admin" ∨ role = "analyst" ∨ role = "viewer")) ∧
    (∀ permissions, rolePermissions role = some permissions →
      (role = "admin" ∨ role = "analyst" ∨ role = "viewer") ∧
      (HasPermission role p = none ↔ p ∈ permissions) ∧
      (p ∉ permissions →
        HasPermission role p = some ("permission denied: " ++ role ++ " requires " ++ p))) := by
  have hsome := rolePermissions_isSome_iff role
  constructor
  · cases hr : rolePermissions role with
    | none =>
      rw [hr] at hsome
      simp only [HasPermission, hr, true_iff]
      intro h
      have := hsome.2 h
      simp at this
    | some permissions =>
      rw [hr] at hsome
      have hin := hsome.1 rfl
      simp only [HasPermission, hr]
      constructor
      · intro h
        split at h
        · cases h
        · exact absurd (Option.some.inj h) (denied_ne_unknown role p role)
      · intro h
        exact absurd hin h
  · intro permissions hr
    rw [hr] at hsome
    refine ⟨hsome.1 rfl, ?_, ?_⟩
    · simp only [HasPermission, hr]
      rw [← permissionLoop_iff]
      by_cases hl : permissionLoop p permissions = true
      · simp [hl]
      · simp [hl]
    · intro hnot
      have hl : ¬ permissionLoop p permissions = true :=
        fun h => hnot ((permissionLoop_iff p permissions).1 h)
      simp [HasPermission, hr, hl]

/-- C26: the check that guards `/auth/register`,
`HasPermission(role, PermissionCreateTenant)`, returns nil exactly when the role
is `admin`. -/
theorem register_admin_only (role : String) :
    HasPermission role PermissionCreateTenant = none ↔ role = "admin" := by
  unfold HasPermission rolePermissions
  by_cases h1 : role = "admin"
  · subst h1
    simp only [if_true, iff_true]
    decide
  · by_cases h2 : role = "analyst"
    · subst h2
      simp only [h1, iff_false]
      decide
    · by_cases h3 : role = "viewer"
      · subst h3
        simp only [h1, iff_false]
        decide
      · simp [h1, h2, h3]

/-! ### Affectedness predicate: order, duplicates, empty name -/

theorem containsChars_nil (s : List Char) : containsChars s [] = true := by
  cases s <;> simp [containsChars, hasPrefixChars]

/-- C30: an affected-product entry with the empty name passes the name test
against every asset name, so a vulnerability holding the entry
`{name: "", versions: ["*"]}` affects every asset. -/
theorem isAssetAffected_empty_name (asset : Asset) (vuln : Vulnerability)
    (hentry : { Name := "", Versions := ["*"] } ∈ vuln.AffectedProducts) :
    strings_Contains (strings_ToLower asset.Name) (strings_ToLower "") = true ∧
    isAssetAffected asset vuln = true := by
  have hname : strings_Contains (strings_ToLower asset.Name) (strings_ToLower "") = true :=
    containsChars_nil _
  refine ⟨hname, ?_⟩
  unfold isAssetAffected
  rw [affectedLoop_iff]
  exact ⟨_, hentry, hname, Or.inr (Or.inr (List.mem_singleton_self _))⟩

theorem isAssetAffected_empty_name_witness :
    isAssetAffected { sampleAsset with Name := "postgres", Version := none }
      { sampleVulnApache with
        AffectedProducts := [{ Name := "apache", Versions := ["2.4.49"] },
                             { Name := "", Versions := ["*"] }] } = true :=
  (isAssetAffected_empty_name { sampleAsset with Name := "postgres", Version := none }
    { sampleVulnApache with
      AffectedProducts := [{ Name := "apache", Versions := ["2.4.49"] },
                           { Name := "", Versions := ["*"] }] } (by decide)).2

/-- Two entries with the same name whose version lists have the same elements
pass or fail the tests of the loop together. -/
theorem entry_test_congr (asset : Asset) (p q : AffectedProduct) (hname : p.Name = q.Name)
    (hvers : ∀ x, x ∈ p.Versions ↔ x ∈ q.Versions) :
    (strings_Contains (strings_ToLower asset.Name) (strings_ToLower p.Name) = true ∧
      ((asset.Version = none ∧ p.Versions = []) ∨
        (∃ v, asset.Version = some v ∧ v ∈ p.Versions) ∨ "*" ∈ p.Versions)) ↔
    (strings_Contains (strings_ToLower asset.Name) (strings_ToLower q.Name) = true ∧
      ((asset.Version = none ∧ q.Versions = []) ∨
        (∃ v, asset.Version = some v ∧ v ∈ q.Versions) ∨ "*" ∈ q.Versions)) := by
  have hnil : p.Versions = [] ↔ q.Versions = [] := by
    rw [List.eq_nil_iff_forall_not_mem, List.eq_nil_iff_forall_not_mem]
    exact forall_congr' (fun x => not_congr (hvers x))
  rw [hname, hnil, hvers "*"]
  simp only [hvers]

theorem affectedLoop_of_entrywise (asset : Asset) (ps qs : List AffectedProduct)
    (h : List.Forall₂ (fun p q => p.Name = q.Name ∧ ∀ x, x ∈ p.Versions ↔ x ∈ q.Versions) ps qs) :
    affectedLoop asset ps = affectedLoop asset qs := by
  induction h with
  | nil => rfl
  | @cons p q ps2 qs2 hpq _ ih =>
    rw [Bool.eq_iff_iff, affectedLoop_cons, affectedLoop_cons, ih]
    have hc := entry_test_congr asset p q hpq.1 hpq.2
    have e1 := containsChars_iff (strings_ToLower asset.Name).data (strings_ToLower p.Name).data
    have e2 := containsChars_iff (strings_ToLower asset.Name).data (strings_ToLower q.Name).data
    unfold strings_Contains at hc
    rw [e1, e2] at hc
    rw [hc]

theorem affectedLoop_of_perm (asset : Asset) (ps qs : List AffectedProduct)
    (h : List.Perm ps qs) : affectedLoop asset ps = affectedLoop asset qs := by
  rw [Bool.eq_iff_iff, affectedLoop_iff, affectedLoop_iff]
  constructor
  · rintro ⟨p, hp, hrest⟩
    exact ⟨p, h.mem_iff.1 hp, hrest⟩
  · rintro ⟨p, hp, hrest⟩
    exact ⟨p, h.mem_iff.2 hp, hrest⟩

/-- C28: the result of `isAssetAffected` does not change when the affected-product
entries are reordered, nor when the version list of any entry is replaced by a
list with the same elements (reordered, or with elements repeated). -/
theorem isAssetAffected_order_irrelevant (asset : Asset) (vuln : Vulnerability) :
    (∀ products, List.Perm products vuln.AffectedProducts →
      isAssetAffected asset { vuln with AffectedProducts := products } =
        isAssetAffected asset vuln) ∧
    (∀ products,
      List.Forall₂ (fun p q => p.Name = q.Name ∧ ∀ x, x ∈ p.Versions ↔ x ∈ q.Versions)
        products vuln.AffectedProducts →
      isAssetAffected asset { vuln with AffectedProducts := products } =
        isAssetAffected asset vuln) ∧
    (∀ p : AffectedProduct, ∀ versions, List.Perm versions p.Versions →
      ∀ x, x ∈ versions ↔ x ∈ p.Versions) ∧
    (∀ p : AffectedProduct, ∀ x, x ∈ p.Versions ++ p.Versions ↔ x ∈ p.Versions) := by
  refine ⟨?_, ?_, ?_, ?_⟩
  · intro products h
    exact affectedLoop_of_perm asset products vuln.AffectedProducts h
  · intro products h
    exact affectedLoop_of_entrywise asset products vuln.AffectedProducts h
  · intro p versions h x
    exact h.mem_iff
  · intro p x
    simp

/-- A vulnerability with its two entries swapped and the versions of one entry
reversed and repeated gives the same result. -/
theorem isAssetAffected_order_sample :
    isAssetAffected sampleAsset
        { sampleVuln with
          AffectedProducts := [{ Name := "apache", Versions := ["2.4.49"] },
                               { Name := "nginx", Versions := ["1.18.0", "1.16.1", "1.18.0"] }] } =
      isAssetAffected sampleAsset
        { sampleVuln with
          AffectedProducts := [{ Name := "nginx", Versions := ["1.16.1", "1.18.0"] },
                               { Name := "apache", Versions := ["2.4.49"] }] } := by
  decide

/-! ### The sequential loop -/

theorem HandlerRun.refl (w : World) : HandlerRun w w := ⟨[], by simp, by simp⟩

theorem HandlerRun.trans {w1 w2 w3 : World} (h12 : HandlerRun w1 w2) (h23 : HandlerRun w2 w3) :
    HandlerRun w1 w3 := by
  obtain ⟨a, ha, hna⟩ := h12
  obtain ⟨b, hb, hnb⟩ := h23
  refine ⟨a ++ b, by rw [hb, ha, List.append_assoc], ?_⟩
  intro e he
  rcases List.mem_append.1 he with h | h
  · exact hna e h
  · exact hnb e h

theorem HandlerRun.of_trace_eq {w1 w2 : World} (h : w2.trace = w1.trace) : HandlerRun w1 w2 :=
  ⟨[], by simp [h], by simp⟩

theorem HandlerRun.log (w : World) (e : Event) (he : e.isSettle = false) :
    HandlerRun w (w.log e) :=
  ⟨[e], rfl, by simp [he]⟩

theorem HandlerRun.publishWebhookEvent (env : Env) (w : World) (tenantID : UUID)
    (eventType : String) (payload : List (String × JSONValue)) :
    HandlerRun w (publishWebhookEvent env w tenantID eventType payload) := by
  unfold VulnPulse.publishWebhookEvent Client_Publish
  split
  · exact ⟨[_], rfl, by simp [Event.isSettle]⟩
  · exact ⟨[_], rfl, by simp [Event.isSettle]⟩

theorem HandlerRun.upsertAndPublish (env : Env) (w : World) (tenantID : UUID) (asset : Asset)
    (vuln : Vulnerability) : HandlerRun w (upsertAndPublish env w tenantID asset vuln) := by
  have h1 : HandlerRun w
      (({ w.step with alerts := (pairUpsert env w asset vuln).rows }.log
        (Event.upsert (newAlert env w asset vuln) (pairUpsert env w asset vuln).err)).step) :=
    ⟨[_], rfl, by simp [Event.isSettle]⟩
  cases herr : (pairUpsert env w asset vuln).err with
  | none =>
    simp only [VulnPulse.upsertAndPublish, herr]
    rw [herr] at h1
    exact h1.trans (HandlerRun.publishWebhookEvent env _ _ _ _)
  | some e =>
    simp only [VulnPulse.upsertAndPublish, herr]
    rw [herr] at h1
    exact h1

theorem HandlerRun.foldl_matchAssetBody (env : Env) (asset : Asset)
    (vulns : List Vulnerability) (w : World) :
    HandlerRun w (vulns.foldl (matchAssetBody env asset) w) := by
  induction vulns generalizing w with
  | nil => exact HandlerRun.refl w
  | cons v rest ih =>
    rw [List.foldl_cons]
    refine HandlerRun.trans ?_ (ih _)
    unfold matchAssetBody
    split
    · exact HandlerRun.upsertAndPublish env w asset.TenantID asset v
    · exact HandlerRun.refl w

theorem HandlerRun.foldl_matchVulnerabilityBody (env : Env) (tenantID : UUID)
    (vuln : Vulnerability) (assets : List Asset) (w : World) :
    HandlerRun w (assets.foldl (matchVulnerabilityBody env tenantID vuln) w) := by
  induction assets generalizing w with
  | nil => exact HandlerRun.refl w
  | cons a rest ih =>
    rw [List.foldl_cons]
    refine HandlerRun.trans ?_ (ih _)
    unfold matchVulnerabilityBody
    split
    · exact HandlerRun.upsertAndPublish env w tenantID a vuln
    · exact HandlerRun.refl w

theorem GetByID_snd (env : Env) (w : World) (id : UUID) :
    (AssetRepository_GetByID env w id).2 = w.step := by
  unfold AssetRepository_GetByID
  split
  · rfl
  · split
    · rfl
    · split <;> rfl

theorem VulnGetByID_snd (env : Env) (w : World) (id : UUID) :
    (VulnerabilityRepository_GetByID env w id).2 = w.step := by
  unfold VulnerabilityRepository_GetByID
  split
  · rfl
  · split <;> rfl

theorem VulnList_snd (env : Env) (w : World) (limit offset : Nat) :
    (VulnerabilityRepository_List env w limit offset).2 = w.step := by
  unfold VulnerabilityRepository_List
  split <;> rfl

theorem HandlerRun.matchTenantBody (env : Env) (vuln : Vulnerability) (w : World)
    (tenantID : UUID) : HandlerRun w (matchTenantBody env vuln w tenantID) := by
  have hl := (ListByTenant_ok env w tenantID).1
  unfold VulnPulse.matchTenantBody
  generalize AssetRepository_ListByTenant env w tenantID = g at hl ⊢
  obtain ⟨r1, v1⟩ := g
  simp only at hl
  subst hl
  cases r1 with
  | error e => exact HandlerRun.of_trace_eq rfl
  | ok assets =>
    exact (HandlerRun.of_trace_eq rfl).trans
      (HandlerRun.foldl_matchVulnerabilityBody env tenantID vuln assets _)

theorem HandlerRun.foldl_matchTenantBody (env : Env) (vuln : Vulnerability)
    (tenants : List UUID) (w : World) :
    HandlerRun w (tenants.foldl (VulnPulse.matchTenantBody env vuln) w) := by
  induction tenants generalizing w with
  | nil => exact HandlerRun.refl w
  | cons t rest ih =>
    rw [List.foldl_cons]
    exact (HandlerRun.matchTenantBody env vuln w t).trans (ih _)

theorem HandlerRun.MatchAsset (env : Env) (w : World) (assetID : UUID) :
    HandlerRun w (MatchAsset env w assetID).2 := by
  have h0 : HandlerRun w (w.log (Event.matchAsset assetID)) := HandlerRun.log w _ rfl
  have hg := GetByID_snd env (w.log (Event.matchAsset assetID)) assetID
  simp only [VulnPulse.MatchAsset]
  generalize AssetRepository_GetByID env (w.log (Event.matchAsset assetID)) assetID = g at hg ⊢
  obtain ⟨r1, v1⟩ := g
  simp only at hg
  subst hg
  cases r1 with
  | error e => exact h0.trans (HandlerRun.of_trace_eq rfl)
  | ok asset =>
    simp only
    have hl := VulnList_snd env (w.log (Event.matchAsset assetID)).step 1000 0
    generalize VulnerabilityRepository_List env (w.log (Event.matchAsset assetID)).step 1000 0 = g2
      at hl ⊢
    obtain ⟨r2, v2⟩ := g2
    simp only at hl
    subst hl
    cases r2 with
    | error e => exact h0.trans (HandlerRun.of_trace_eq rfl)
    | ok vulns =>
      exact (h0.trans (HandlerRun.of_trace_eq rfl)).trans
        (HandlerRun.foldl_matchAssetBody env asset vulns _)

theorem HandlerRun.MatchVulnerability (env : Env) (w : World) (vulnID : UUID) :
    HandlerRun w (MatchVulnerability env w vulnID).2 := by
  have h0 : HandlerRun w (w.log (Event.matchVulnerability vulnID)) := HandlerRun.log w _ rfl
  have hg := VulnGetByID_snd env (w.log (Event.matchVulnerability vulnID)) vulnID
  simp only [VulnPulse.MatchVulnerability]
  generalize VulnerabilityRepository_GetByID env (w.log (Event.matchVulnerability vulnID)) vulnID
    = g at hg ⊢
  obtain ⟨r1, v1⟩ := g
  simp only at hg
  subst hg
  cases r1 with
  | error e => exact h0.trans (HandlerRun.of_trace_eq rfl)
  | ok vuln =>
    exact (h0.trans (HandlerRun.of_trace_eq rfl)).trans
      (HandlerRun.foldl_matchTenantBody env vuln getTenantIDs _)

theorem HandlerRun.handleVulnIngested (env : Env) (w : World) (msg : Message) :
    HandlerRun w (handleVulnIngested env w msg).2 := by
  unfold VulnPulse.handleVulnIngested
  split
  · split
    · exact HandlerRun.refl w
    · exact HandlerRun.MatchVulnerability env w _
  · exact HandlerRun.refl w

theorem HandlerRun.handleAssetChanged (env : Env) (w : World) (msg : Message) :
    HandlerRun w (handleAssetChanged env w msg).2 := by
  unfold VulnPulse.handleAssetChanged
  split
  · split
    · exact HandlerRun.refl w
    · exact HandlerRun.MatchAsset env w _
  · exact HandlerRun.refl w

/-- One delivery: the trace grows by a segment without any ack or nack, followed
by exactly one ack or nack carrying the tag of the delivery. -/
theorem processMessage_segment (env : Env) (w : World) (delivery : Delivery) :
    ∃ seg decision,
      (processMessage env w delivery).trace = w.trace ++ seg ++ [decision] ∧
      (∀ e ∈ seg, e.isSettle = false) ∧
      (decision = Event.ack delivery.DeliveryTag false ∨
        decision = Event.nack delivery.DeliveryTag false false ∨
        decision = Event.nack delivery.DeliveryTag false true) := by
  have hsettle : ∀ r : GoError × World, HandlerRun w r.2 →
      ∃ seg decision,
        (settle delivery r).trace = w.trace ++ seg ++ [decision] ∧
        (∀ e ∈ seg, e.isSettle = false) ∧
        (decision = Event.ack delivery.DeliveryTag false ∨
          decision = Event.nack delivery.DeliveryTag false false ∨
          decision = Event.nack delivery.DeliveryTag false true) := by
    intro r hr
    obtain ⟨added, hadd, hnone⟩ := hr
    unfold settle
    split
    · exact ⟨added, _, by simp [World.log, hadd], hnone, Or.inr (Or.inr rfl)⟩
    · exact ⟨added, _, by simp [World.log, hadd], hnone, Or.inl rfl⟩
  unfold processMessage
  split
  · exact ⟨[], _, by simp [World.log], by simp, Or.inr (Or.inl rfl)⟩
  · split
    · exact hsettle _ (HandlerRun.handleVulnIngested env w _)
    · split
      · exact hsettle _ (HandlerRun.handleAssetChanged env w _)
      · split
        · exact ⟨[], _, by simp [World.log], by simp, Or.inl rfl⟩
        · exact ⟨[], _, by simp [World.log], by simp, Or.inr (Or.inl rfl)⟩

theorem settledTags_processMessage (env : Env) (w : World) (delivery : Delivery) :
    settledTags (processMessage env w delivery) = settledTags w ++ [delivery.DeliveryTag] := by
  obtain ⟨seg, decision, htrace, hseg, hdec⟩ := processMessage_segment env w delivery
  have hnone : seg.filterMap Event.settleTag = [] := by
    rw [List.filterMap_eq_nil_iff]
    intro e he
    have := hseg e he
    cases e <;> simp_all [Event.isSettle, Event.settleTag]
  unfold settledTags
  rw [htrace, List.filterMap_append, List.filterMap_append, hnone]
  rcases hdec with h | h | h <;> simp [h, Event.settleTag]

theorem Start_cons (env : Env) (w : World) (d : Delivery) (rest : List Delivery) :
    Start env w (d :: rest) = Start env (processMessage env w d) rest := rfl

theorem Start_append (env : Env) (w : World) (before after : List Delivery) :
    Start env w (before ++ after) = Start env (Start env w before) after := by
  simp [Start, List.foldl_append]

theorem settledTags_Start (env : Env) (w : World) (msgs : List Delivery) :
    settledTags (Start env w msgs) = settledTags w ++ msgs.map (fun d => d.DeliveryTag) := by
  induction msgs generalizing w with
  | nil => simp [Start]
  | cons d rest ih =>
    rw [Start_cons, ih, settledTags_processMessage]
    simp

theorem Start_trace_extends (env : Env) (w : World) (msgs : List Delivery) :
    ∃ later, (Start env w msgs).trace = w.trace ++ later := by
  induction msgs generalizing w with
  | nil => exact ⟨[], by simp [Start]⟩
  | cons d rest ih =>
    obtain ⟨later, hlater⟩ := ih (processMessage env w d)
    obtain ⟨seg, decision, htrace, _, _⟩ := processMessage_segment env w d
    rw [Start_cons, hlater, htrace]
    exact ⟨seg ++ [decision] ++ later, by simp⟩

/-- C23: `Start` handles the deliveries one after the other in the order given.
The acks and nacks it issues are exactly one per delivery, in delivery order; and
for each delivery `d` of the sequence, the actions of `d` form one segment of the
trace that starts where the run of the earlier deliveries ended, holds no ack or
nack except its last action, which is the ack, the nack without requeue or the
nack with requeue of `d`, and the later deliveries run from the world that `d`
left, their actions coming after that segment. -/
theorem Start_sequential (env : Env) (w : World) (before : List Delivery) (d : Delivery)
    (after : List Delivery) :
    settledTags (Start env w (before ++ d :: after)) =
      settledTags w ++ (before ++ d :: after).map (fun x => x.DeliveryTag) ∧
    Start env w (before ++ d :: after) =
      Start env (processMessage env (Start env w before) d) after ∧
    ∃ seg decision later,
      (processMessage env (Start env w before) d).trace =
        (Start env w before).trace ++ seg ++ [decision] ∧
      (∀ e ∈ seg, e.isSettle = false) ∧
      (decision = Event.ack d.DeliveryTag false ∨
        decision = Event.nack d.DeliveryTag false false ∨
        decision = Event.nack d.DeliveryTag false true) ∧
      (Start env w (before ++ d :: after)).trace =
        (Start env w before).trace ++ seg ++ [decision] ++ later := by
  have hsplit : Start env w (before ++ d :: after) =
      Start env (processMessage env (Start env w before) d) after := by
    rw [Start_append, Start_cons]
  refine ⟨settledTags_Start env w _, hsplit, ?_⟩
  obtain ⟨seg, decision, htrace, hseg, hdec⟩ :=
    processMessage_segment env (Start env w before) d
  obtain ⟨later, hlater⟩ := Start_trace_extends env (processMessage env (Start env w before) d) after
  exact ⟨seg, decision, later, htrace, hseg, hdec, by rw [hsplit, hlater, htrace]⟩

/-- Three deliveries (malformed, unknown type, invalid payload) are settled in
order, one action each. -/
theorem Start_sample :
    (Start sampleEnv (sampleWorld [])
      [Delivery.mk 3 "\x7b\"type\":",
       Delivery.mk 4 "\x7b\"type\":\"unknown.kind\"\x7d",
       Delivery.mk 6 "\x7b\"type\":\"vuln.ingested\",\"payload\":\x7b\x7d\x7d"]).trace =
      [Event.nack 3 false false, Event.nack 4 false false, Event.nack 6 false true] := rfl

/-! ### Load failures -/

theorem GetByID_not_found (env : Env) (w : World) (id : UUID)
    (habsent : ∀ row ∈ w.assets, row.asset.ID ≠ id) :
    ∃ e, (AssetRepository_GetByID env w id).1 = Except.error e := by
  have hfind : w.assets.find? (fun row => decide (row.asset.ID = id)) = none := by
    rw [List.find?_eq_none]
    intro row hrow
    simpa using habsent row hrow
  unfold AssetRepository_GetByID
  split
  · exact ⟨_, rfl⟩
  · rw [hfind]
    exact ⟨_, rfl⟩

theorem VulnGetByID_not_found (env : Env) (w : World) (id : UUID)
    (habsent : ∀ v ∈ w.vulnerabilities, v.ID ≠ id) :
    ∃ e, (VulnerabilityRepository_GetByID env w id).1 = Except.error e := by
  have hfind : w.vulnerabilities.find? (fun v => decide (v.ID = id)) = none := by
    rw [List.find?_eq_none]
    intro v hv
    simpa using habsent v hv
  unfold VulnerabilityRepository_GetByID
  split
  · exact ⟨_, rfl⟩
  · rw [hfind]
    exact ⟨_, rfl⟩

theorem MatchVulnerability_load_error (env : Env) (w : World) (id : UUID) (e : String)
    (h : (VulnerabilityRepository_GetByID env (w.log (Event.matchVulnerability id)) id).1 =
      Except.error e) :
    MatchVulnerability env w id =
      (some "failed to get vulnerability",
        { w with trace := w.trace ++ [Event.matchVulnerability id], tick := w.tick + 1 }) := by
  have hs := VulnGetByID_snd env (w.log (Event.matchVulnerability id)) id
  simp only [MatchVulnerability]
  generalize VulnerabilityRepository_GetByID env (w.log (Event.matchVulnerability id)) id = g
    at h hs ⊢
  obtain ⟨r1, v1⟩ := g
  simp only at h hs
  subst h hs
  rfl

theorem MatchAsset_load_error (env : Env) (w : World) (id : UUID) (e : String)
    (h : (AssetRepository_GetByID env (w.log (Event.matchAsset id)) id).1 = Except.error e) :
    MatchAsset env w id =
      (some "failed to get asset",
        { w with trace := w.trace ++ [Event.matchAsset id], tick := w.tick + 1 }) := by
  have hs := GetByID_snd env (w.log (Event.matchAsset id)) id
  simp only [MatchAsset]
  generalize AssetRepository_GetByID env (w.log (Event.matchAsset id)) id = g at h hs ⊢
  obtain ⟨r1, v1⟩ := g
  simp only at h hs
  subst h hs
  rfl

theorem MatchAsset_list_error (env : Env) (w : World) (id : UUID) (asset : Asset) (e : String)
    (h : (AssetRepository_GetByID env (w.log (Event.matchAsset id)) id).1 = Except.ok asset)
    (hl : (VulnerabilityRepository_List env (w.log (Event.matchAsset id)).step 1000 0).1 =
      Except.error e) :
    MatchAsset env w id =
      (some "failed to list vulnerabilities",
        { w with trace := w.trace ++ [Event.matchAsset id], tick := w.tick + 2 }) := by
  have hs := GetByID_snd env (w.log (Event.matchAsset id)) id
  have hls := VulnList_snd env (w.log (Event.matchAsset id)).step 1000 0
  simp only [MatchAsset]
  generalize AssetRepository_GetByID env (w.log (Event.matchAsset id)) id = g at h hs ⊢
  obtain ⟨r1, v1⟩ := g
  simp only at h hs
  subst h hs
  simp only
  generalize VulnerabilityRepository_List env (w.log (Event.matchAsset id)).step 1000 0 = g2
    at hl hls ⊢
  obtain ⟨r2, v2⟩ := g2
  simp only at hl hls
  subst hl hls
  rfl

theorem processMessage_vuln (env : Env) (w : World) (delivery : Delivery) (msg : Message)
    (u : String) (id : UUID) (hparse : env.jsonUnmarshal delivery.Body = some msg)
    (huuid : env.uuidParse u = some id) (htype : msg.Type_ = "vuln.ingested")
    (hlookup : msg.Payload.lookup "vulnerability_id" = some (JSONValue.string u)) :
    processMessage env w delivery = settle delivery (MatchVulnerability env w id) := by
  simp [processMessage, hparse, htype, handleVulnIngested, hlookup, huuid]

theorem processMessage_asset (env : Env) (w : World) (delivery : Delivery) (msg : Message)
    (u : String) (id : UUID) (hparse : env.jsonUnmarshal delivery.Body = some msg)
    (huuid : env.uuidParse u = some id) (htype : msg.Type_ = "asset.changed")
    (hlookup : msg.Payload.lookup "asset_id" = some (JSONValue.string u)) :
    processMessage env w delivery = settle delivery (MatchAsset env w id) := by
  have hne : ¬ msg.Type_ = "vuln.ingested" := by rw [htype]; decide
  simp [processMessage, hparse, htype, handleAssetChanged, hlookup, huuid]

/-- C21: when loading the vulnerability fails, `MatchVulnerability` returns an
error and the world is the initial one plus its entry in the trace and one tick:
no `Upsert`, no publish, tables and broker untouched; the same holds for
`MatchAsset` when loading the asset fails and, with two ticks, when listing the
catalog fails. In each case the envelope that led there is negatively
acknowledged with requeue=true. An id without a row is such a failure. -/
theorem load_failure_requeues (env : Env) (w : World) (delivery : Delivery) (msg : Message)
    (u : String) (id : UUID) (hparse : env.jsonUnmarshal delivery.Body = some msg)
    (huuid : env.uuidParse u = some id) :
    (∀ e, (VulnerabilityRepository_GetByID env (w.log (Event.matchVulnerability id)) id).1 =
        Except.error e →
      MatchVulnerability env w id =
        (some "failed to get vulnerability",
          { w with trace := w.trace ++ [Event.matchVulnerability id], tick := w.tick + 1 }) ∧
      (msg.Type_ = "vuln.ingested" →
        msg.Payload.lookup "vulnerability_id" = some (JSONValue.string u) →
        processMessage env w delivery =
          { w with
            trace := w.trace ++
              [Event.matchVulnerability id, Event.nack delivery.DeliveryTag false true],
            tick := w.tick + 1 })) ∧
    (∀ e, (AssetRepository_GetByID env (w.log (Event.matchAsset id)) id).1 = Except.error e →
      MatchAsset env w id =
        (some "failed to get asset",
          { w with trace := w.trace ++ [Event.matchAsset id], tick := w.tick + 1 }) ∧
      (msg.Type_ = "asset.changed" →
        msg.Payload.lookup "asset_id" = some (JSONValue.string u) →
        processMessage env w delivery =
          { w with
            trace := w.trace ++ [Event.matchAsset id, Event.nack delivery.DeliveryTag false true],
            tick := w.tick + 1 })) ∧
    (∀ asset e,
      (AssetRepository_GetByID env (w.log (Event.matchAsset id)) id).1 = Except.ok asset →
      (VulnerabilityRepository_List env (w.log (Event.matchAsset id)).step 1000 0).1 =
        Except.error e →
      MatchAsset env w id =
        (some "failed to list vulnerabilities",
          { w with trace := w.trace ++ [Event.matchAsset id], tick := w.tick + 2 }) ∧
      (msg.Type_ = "asset.changed" →
        msg.Payload.lookup "asset_id" = some (JSONValue.string u) →
        processMessage env w delivery =
          { w with
            trace := w.trace ++ [Event.matchAsset id, Event.nack delivery.DeliveryTag false true],
            tick := w.tick + 2 })) ∧
    ((∀ row ∈ w.assets, row.asset.ID ≠ id) →
      ∃ e, (AssetRepository_GetByID env (w.log (Event.matchAsset id)) id).1 = Except.error e) ∧
    ((∀ v ∈ w.vulnerabilities, v.ID ≠ id) →
      ∃ e, (VulnerabilityRepository_GetByID env (w.log (Event.matchVulnerability id)) id).1 =
        Except.error e) := by
  refine ⟨?_, ?_, ?_, ?_, ?_⟩
  · intro e h
    have hm := MatchVulnerability_load_error env w id e h
    refine ⟨hm, ?_⟩
    intro htype hlookup
    rw [processMessage_vuln env w delivery msg u id hparse huuid htype hlookup, hm]
    simp [settle, World.log]
  · intro e h
    have hm := MatchAsset_load_error env w id e h
    refine ⟨hm, ?_⟩
    intro htype hlookup
    rw [processMessage_asset env w delivery msg u id hparse huuid htype hlookup, hm]
    simp [settle, World.log]
  · intro asset e h hl
    have hm := MatchAsset_list_error env w id asset e h hl
    refine ⟨hm, ?_⟩
    intro htype hlookup
    rw [processMessage_asset env w delivery msg u id hparse huuid htype hlookup, hm]
    simp [settle, World.log]
  · intro habsent
    exact GetByID_not_found env (w.log (Event.matchAsset id)) id habsent
  · intro habsent
    exact VulnGetByID_not_found env (w.log (Event.matchVulnerability id)) id habsent

theorem load_failure_requeues_witness :
    processMessage sampleEnvMore { sampleWorld [] with vulnerabilities := [] }
        (Delivery.mk 9 "\x7b\"type\":\"vuln.ingested\",\"payload\":\x7b\"vulnerability_id\":\"00000000-0000-0000-0000-000000000002\"\x7d\x7d") =
      { sampleWorld [] with
        vulnerabilities := [],
        trace := [Event.matchVulnerability 2, Event.nack 9 false true],
        tick := 1 } :=
  ((load_failure_requeues sampleEnvMore { sampleWorld [] with vulnerabilities := [] }
    (Delivery.mk 9 "\x7b\"type\":\"vuln.ingested\",\"payload\":\x7b\"vulnerability_id\":\"00000000-0000-0000-0000-000000000002\"\x7d\x7d")
    { Type_ := "vuln.ingested", TenantID := "",
      Payload := [("vulnerability_id", JSONValue.string "00000000-0000-0000-0000-000000000002")],
      Timestamp := 0 }
    "00000000-0000-0000-0000-000000000002" 2 rfl rfl).1 "failed to get vulnerability" rfl).2
    rfl rfl

/-! ### Upsert failures inside the fan-out -/

theorem okUpsertCount_upsertAndPublish (env : Env) (w : World) (tenantID : UUID)
    (asset : Asset) (vuln : Vulnerability) :
    okUpsertCount (upsertAndPublish env w tenantID asset vuln) =
      okUpsertCount w + if (pairUpsert env w asset vuln).err = none then 1 else 0 := by
  unfold okUpsertCount
  rw [upsertCalls_upsertAndPublish, List.countP_append]
  cases (pairUpsert env w asset vuln).err <;> simp [List.countP_cons]

/-- Over the loop of `MatchAsset` the publish calls and the `Upsert` calls that
returned no error grow by the same number. -/
theorem publish_matches_okUpserts_foldl (env : Env) (asset : Asset)
    (vulns : List Vulnerability) (w : World) :
    publishCount (vulns.foldl (matchAssetBody env asset) w) + okUpsertCount w =
      publishCount w + okUpsertCount (vulns.foldl (matchAssetBody env asset) w) := by
  induction vulns generalizing w with
  | nil => rfl
  | cons v rest ih =>
    rw [List.foldl_cons]
    have h := ih (matchAssetBody env asset w v)
    have hp : publishCount (matchAssetBody env asset w v) + okUpsertCount w =
        publishCount w + okUpsertCount (matchAssetBody env asset w v) := by
      unfold matchAssetBody
      split
      · rw [publishCount_upsertAndPublish, okUpsertCount_upsertAndPublish]
        omega
      · rfl
    omega

/-- A failed `Upsert` for a pair leaves the broker as it was. -/
theorem upsertAndPublish_of_error (env : Env) (w : World) (tenantID : UUID) (asset : Asset)
    (vuln : Vulnerability) (e : String) (herr : (pairUpsert env w asset vuln).err = some e) :
    (upsertAndPublish env w tenantID asset vuln).published = w.published ∧
    publishCount (upsertAndPublish env w tenantID asset vuln) = publishCount w := by
  refine ⟨?_, ?_⟩
  · simp only [upsertAndPublish, herr]
    rfl
  · rw [publishCount_upsertAndPublish, herr]
    simp

/-- C29: when the asset and the catalog load, then whatever `Upsert` calls fail,
`MatchAsset` returns no error; it still makes one `Upsert` call for each listed
vulnerability that affects the asset, in order; a pair whose `Upsert` returned an
error gets no publish call and no envelope, and over the run the publish calls
are as many as the `Upsert` calls that returned no error; and the
`asset.changed` envelope that led there is acknowledged. -/
theorem upsert_failure_is_skipped (env : Env) (w w1 w2 : World) (assetID : UUID)
    (asset : Asset) (vulns : List Vulnerability) (delivery : Delivery) (msg : Message)
    (u : String)
    (hasset : AssetRepository_GetByID env (w.log (Event.matchAsset assetID)) assetID =
      (Except.ok asset, w1))
    (hlist : VulnerabilityRepository_List env w1 1000 0 = (Except.ok vulns, w2))
    (hparse : env.jsonUnmarshal delivery.Body = some msg)
    (huuid : env.uuidParse u = some assetID)
    (htype : msg.Type_ = "asset.changed")
    (hlookup : msg.Payload.lookup "asset_id" = some (JSONValue.string u)) :
    (MatchAsset env w assetID).1 = none ∧
    (upsertCalls (MatchAsset env w assetID).2).map upsertSubject =
      (upsertCalls w).map upsertSubject ++
        (vulns.filter (fun v => isAssetAffected asset v)).map
          (fun v => (asset.TenantID, asset.ID, v.ID, v.Severity, "open")) ∧
    (∀ (w3 : World) (vuln : Vulnerability) (e : String),
      isAssetAffected asset vuln = true → (pairUpsert env w3 asset vuln).err = some e →
      (matchAssetBody env asset w3 vuln).published = w3.published ∧
      publishCount (matchAssetBody env asset w3 vuln) = publishCount w3) ∧
    publishCount (MatchAsset env w assetID).2 + okUpsertCount w =
      publishCount w + okUpsertCount (MatchAsset env w assetID).2 ∧
    (processMessage env w delivery).trace =
      (MatchAsset env w assetID).2.trace ++ [Event.ack delivery.DeliveryTag false] := by
  have hw1 : w1 = (w.log (Event.matchAsset assetID)).step := by
    have := GetByID_snd env (w.log (Event.matchAsset assetID)) assetID
    rw [hasset] at this
    exact this
  have hw2 : w2 = w1.step := by
    have := VulnList_snd env w1 1000 0
    rw [hlist] at this
    exact this
  have hrun : MatchAsset env w assetID = (none, vulns.foldl (matchAssetBody env asset) w2) := by
    simp only [MatchAsset, hasset, hlist]
  have hu2 : upsertCalls w2 = upsertCalls w := by
    rw [hw2, hw1]
    simp [upsertCalls, World.log, World.step, List.filterMap_append, Event.asUpsert]
  have hp2 : publishCount w2 = publishCount w := by
    rw [hw2, hw1]
    simp [publishCount, World.log, World.step, List.countP_append, List.countP_cons,
      Event.isPublish]
  have ho2 : okUpsertCount w2 = okUpsertCount w := by
    unfold okUpsertCount
    rw [hu2]
  refine ⟨by rw [hrun], ?_, ?_, ?_, ?_⟩
  · rw [hrun]
    simp only
    rw [upsertSubjects_foldl_matchAssetBody, hu2]
  · intro w3 vuln e haff herr
    simp only [matchAssetBody, haff, if_true]
    exact upsertAndPublish_of_error env w3 asset.TenantID asset vuln e herr
  · rw [hrun]
    simp only
    have := publish_matches_okUpserts_foldl env asset vulns w2
    rw [hp2, ho2] at this
    exact this
  · rw [processMessage_asset env w delivery msg u assetID hparse huuid htype hlookup, hrun]
    simp [settle, World.log]

theorem upsert_failure_is_skipped_witness :
    (MatchAsset sampleEnvFailing sampleCatalogWorld 1).1 = none ∧
    (upsertCalls (MatchAsset sampleEnvFailing sampleCatalogWorld 1).2).map
        (fun call => (call.1.VulnerabilityID, call.2)) =
      [(2, some "failed to upsert alert"), (4, none)] ∧
    publishCount (MatchAsset sampleEnvFailing sampleCatalogWorld 1).2 = 1 :=
  have h := upsert_failure_is_skipped sampleEnvFailing sampleCatalogWorld
    (sampleCatalogWorld.log (Event.matchAsset 1)).step
    ((sampleCatalogWorld.log (Event.matchAsset 1)).step).step 1 sampleAsset
    sampleCatalogWorld.vulnerabilities
    (Delivery.mk 5 "\x7b\"type\":\"asset.changed\",\"payload\":\x7b\"asset_id\":\"00000000-0000-0000-0000-000000000001\"\x7d\x7d")
    { Type_ := "asset.changed", TenantID := "",
      Payload := [("asset_id", JSONValue.string "00000000-0000-0000-0000-000000000001")],
      Timestamp := 0 }
    "00000000-0000-0000-0000-000000000001" rfl rfl rfl rfl rfl rfl
  ⟨h.1, by decide, by decide⟩

/-! ### The alert id in the envelope, and the size of the catalog -/

/-- With a row of the triple in the table, `Upsert` keeps the ids of all rows: the
id of the alert passed in is stored nowhere. -/
theorem Upsert_keeps_ids (rows : List Alert) (now : Time) (queryFails : Bool) (alert : Alert)
    (hany : rows.any (sameTriple alert) = true) :
    (Upsert rows now queryFails alert).rows.map (fun row => row.ID) =
      rows.map (fun row => row.ID) := by
  cases queryFails with
  | true => simp [Upsert]
  | false =>
    by_cases h2 : rows.any (fun row => sameTriple alert row && refreshable row) = true
    · simp only [Upsert, Bool.false_eq_true, if_false, hany, if_true, h2, List.map_map]
      apply List.map_congr_left
      intro row _
      simp only [Function.comp]
      split <;> rfl
    · simp only [Upsert, Bool.false_eq_true, if_false, hany, if_true, h2]

/-- C27 (the code at the failing input): the ledger holds the `resolved` row 500
for the sample pair; `MatchAsset` refreshes that row, which keeps its id 500, and
publishes an envelope whose `alert_id` is the string of the fresh id 1002, not
that of 500. -/
theorem envelope_alert_id_not_the_row :
    (MatchAsset sampleEnvIds (sampleWorld [sampleRow "resolved"]) 1).2.alerts =
      [{ sampleRow "resolved" with Severity := "high", MatchedAt := 53 }] ∧
    (sampleRow "resolved").ID = 500 ∧
    (MatchAsset sampleEnvIds (sampleWorld [sampleRow "resolved"]) 1).2.published =
      [("vulnpulse-jobs",
        { Type_ := "webhook.dispatch", TenantID := "",
          Payload :=
            [("event_type", JSONValue.string "alert.created"),
             ("event_data", JSONValue.object
                [("alert_id", JSONValue.string "00000000-0000-0000-0000-0000000003ea"),
                 ("asset_id", JSONValue.string "00000000-0000-0000-0000-000000000001"),
                 ("vulnerability_id", JSONValue.string ""),
                 ("cve_id", JSONValue.string "CVE-2024-0001"),
                 ("severity", JSONValue.string "high")])],
          Timestamp := 0 })] ∧
    sampleEnvIds.uuidString 500 = "00000000-0000-0000-0000-0000000001f4" ∧
    sampleEnvIds.uuidString 500 ≠ "00000000-0000-0000-0000-0000000003ea" :=
  ⟨by decide, rfl, rfl, rfl, by decide⟩

/-- C22: when the asset loads and the listing query runs, the loop of `MatchAsset`
ranges over the whole catalog, in catalog order, evaluating `isAssetAffected` for
each entry: the `Upsert` calls it adds are those of all entries of the catalog
that affect the asset, so every such entry gets its call, whatever the size of
the catalog. -/
theorem MatchAsset_checks_whole_catalog (env : Env) (w w1 : World) (assetID : UUID)
    (asset : Asset)
    (hasset : AssetRepository_GetByID env (w.log (Event.matchAsset assetID)) assetID =
      (Except.ok asset, w1))
    (hquery : env.queryFails w1.tick = false) :
    MatchAsset env w assetID =
      (none, w.vulnerabilities.foldl (matchAssetBody env asset) w1.step) ∧
    (upsertCalls (MatchAsset env w assetID).2).map upsertSubject =
      (upsertCalls w).map upsertSubject ++
        (w.vulnerabilities.filter (fun v => isAssetAffected asset v)).map
          (fun v => (asset.TenantID, asset.ID, v.ID, v.Severity, "open")) ∧
    (∀ vuln ∈ w.vulnerabilities, isAssetAffected asset vuln = true →
      ∃ call ∈ upsertCalls (MatchAsset env w assetID).2,
        upsertSubject call = (asset.TenantID, asset.ID, vuln.ID, vuln.Severity, "open")) := by
  have hw1 : w1 = (w.log (Event.matchAsset assetID)).step := by
    have := GetByID_snd env (w.log (Event.matchAsset assetID)) assetID
    rw [hasset] at this
    exact this
  have hcat : w1.vulnerabilities = w.vulnerabilities := by rw [hw1]; rfl
  have hlist : VulnerabilityRepository_List env w1 1000 0 =
      (Except.ok w.vulnerabilities, w1.step) := by
    simp [VulnerabilityRepository_List, hquery, hcat]
  have hrun : MatchAsset env w assetID =
      (none, w.vulnerabilities.foldl (matchAssetBody env asset) w1.step) := by
    simp only [MatchAsset, hasset, hlist]
  have hu1 : upsertCalls w1.step = upsertCalls w := by
    rw [hw1]
    simp [upsertCalls, World.log, World.step, List.filterMap_append, Event.asUpsert]
  have hsubj : (upsertCalls (MatchAsset env w assetID).2).map upsertSubject =
      (upsertCalls w).map upsertSubject ++
        (w.vulnerabilities.filter (fun v => isAssetAffected asset v)).map
          (fun v => (asset.TenantID, asset.ID, v.ID, v.Severity, "open")) := by
    rw [hrun]
    simp only
    rw [upsertSubjects_foldl_matchAssetBody, hu1]
  refine ⟨hrun, hsubj, ?_⟩
  intro vuln hmem haff
  have hin : (asset.TenantID, asset.ID, vuln.ID, vuln.Severity, "open") ∈
      (upsertCalls (MatchAsset env w assetID).2).map upsertSubject := by
    rw [hsubj]
    apply List.mem_append_right
    exact List.mem_map.2 ⟨vuln, List.mem_filter.2 ⟨hmem, haff⟩, rfl⟩
  obtain ⟨call, hcall, hsub⟩ := List.mem_map.1 hin
  exact ⟨call, hcall, hsub⟩

theorem MatchAsset_checks_whole_catalog_witness :
    (upsertCalls (MatchAsset sampleEnv sampleCatalogWorld 1).2).map upsertSubject =
      [(7, 1, 2, "high", "open"), (7, 1, 4, "low", "open")] :=
  (MatchAsset_checks_whole_catalog sampleEnv sampleCatalogWorld
    (sampleCatalogWorld.log (Event.matchAsset 1)).step 1 sampleAsset rfl rfl).2.1.trans
    (by decide)

end VulnPulse
